import Mathlib

/-!
music_library: a shallow embedding of the service, storage and handler layers.

Go values are embedded as follows.

* `string` is `String`; byte-wise library routines whose tests only involve ASCII
  bytes (`strings.Split` on a line-feed pair, `strconv.Atoi`) are run over the
  characters, which agrees with the byte-wise run on UTF-8 text because every byte of
  a multi-byte character is at least 0x80. `len(s)` is `String.utf8ByteSize`.
* `int` is `Int`; the 64-bit range matters only inside `strconv`, where it is explicit.
* `error` is `Option Error` (`none` is `nil`), and a Go result pair `(v, err)` is a pair.
* A method with side effects on the store takes the store state and returns the new one.
* The driver (`*sqlx.DB`, `*sql.Tx`) is an interface over the database state; the open
  transaction is part of that state.
* `context.Context` cancellation and `log.Printf` output are not modelled.
-/

set_option linter.dupNamespace false

namespace MusicLibrary

/-- The text of a Go `error` value (`err.Error()`). -/
abbrev Error := String

/-! ## package models -/

namespace models

/-- Verse of a song (`models.Verse`). -/
structure Verse where
  ID : Int
  SongID : Int
  VerseNumber : Int
  Text : String
  deriving DecidableEq, Repr, Inhabited

/-- Song of the library (`models.Song`). -/
structure Song where
  ID : Int
  Group : String
  Song : String
  ReleaseDate : String
  Link : String
  Verses : List Verse
  deriving DecidableEq, Repr, Inhabited

/-- Answer of the external API (`models.SongDetails`). -/
structure SongDetails where
  ReleaseDate : String
  Text : String
  Link : String
  deriving DecidableEq, Repr, Inhabited

end models

/-! ## package strings (standard library, the part used by the service) -/

namespace strings

/-- Index of the first occurrence of `substr` in `s` (`strings.Index`); `none` is Go's -1. -/
def Index : List Char → List Char → Option Nat
  | [], substr => if substr.isEmpty then some 0 else none
  | c :: cs, substr =>
    if substr.isPrefixOf (c :: cs) then some 0 else (Index cs substr).map (· + 1)

/-- The loop of `strings.Count` for a separator of two or more bytes: `n` counts the
non-overlapping occurrences found so far. Every round removes at least one byte, so
`fuel = len(s)` rounds always reach the `return`. -/
def countLoop : Nat → List Char → List Char → Nat → Nat
  | 0, _, _, n => n
  | fuel + 1, s, substr, n =>
    match Index s substr with
    | none => n
    | some i => countLoop fuel (s.drop (i + substr.length)) substr (n + 1)

/-- Number of non-overlapping occurrences of `substr` in `s` (`strings.Count`). -/
def Count (s substr : List Char) : Nat :=
  if substr.length = 0 then s.length + 1
  else if substr.length = 1 then s.count (substr.headD ' ')
  else countLoop s.length s substr 0

/-- The loop of `strings.genSplit` with `sepSave = 0`: `k` is the number of rounds left
(`n - 1 - i`); the list returned is `a[i:]`. -/
def genSplitLoop : Nat → List Char → List Char → List (List Char)
  | 0, s, _ => [s]
  | k + 1, s, sep =>
    match Index s sep with
    | none => [s]
    | some m => s.take m :: genSplitLoop k (s.drop (m + sep.length)) sep

/-- Go's `genSplit(s, sep, 0, -1)` on characters. -/
def genSplit (s sep : List Char) : List (List Char) :=
  if sep.isEmpty then s.map (fun c => [c])
  else
    let n := Count s sep + 1
    let n := if n > s.length + 1 then s.length + 1 else n
    genSplitLoop (n - 1) s sep

/-- Go's `strings.Split(s, sep)`. -/
def Split (s sep : String) : List String :=
  (genSplit s.data sep.data).map String.mk

end strings

/-! ## package database: the storage interface -/

namespace database

/-- The interface `database.SongDB` over a store state `σ`: every method takes the store
and returns its Go results together with the store afterwards. -/
structure SongDB (σ : Type) where
  AddSong : models.Song → σ → (Int × Option Error) × σ
  GetSongs : Int → Int → models.Song → σ → (List models.Song × Option Error) × σ
  GetSongByID : Int → σ → (models.Song × Option Error) × σ
  UpdateSong : models.Song → σ → Option Error × σ
  DeleteSong : Int → σ → Option Error × σ
  AddVerses : Int → List models.Verse → σ → Option Error × σ
  GetVersesBySongID : Int → Int → Int → σ → (List models.Verse × Option Error) × σ

/-- One call on the storage interface, with its arguments. -/
inductive Call where
  | AddSong (song : models.Song)
  | GetSongs (limit offset : Int) (filter : models.Song)
  | GetSongByID (id : Int)
  | UpdateSong (song : models.Song)
  | DeleteSong (id : Int)
  | AddVerses (songID : Int) (verses : List models.Verse)
  | GetVersesBySongID (songID limit offset : Int)
  deriving DecidableEq, Repr

/-- The store `db` observed: the same store, which also appends every call it receives
to a log kept beside the state. -/
def recording {σ : Type} (db : SongDB σ) : SongDB (σ × List Call) where
  AddSong song s := ((db.AddSong song s.1).1, (db.AddSong song s.1).2, s.2 ++ [Call.AddSong song])
  GetSongs limit offset filter s :=
    ((db.GetSongs limit offset filter s.1).1, (db.GetSongs limit offset filter s.1).2,
      s.2 ++ [Call.GetSongs limit offset filter])
  GetSongByID id s := ((db.GetSongByID id s.1).1, (db.GetSongByID id s.1).2, s.2 ++ [Call.GetSongByID id])
  UpdateSong song s := ((db.UpdateSong song s.1).1, (db.UpdateSong song s.1).2, s.2 ++ [Call.UpdateSong song])
  DeleteSong id s := ((db.DeleteSong id s.1).1, (db.DeleteSong id s.1).2, s.2 ++ [Call.DeleteSong id])
  AddVerses songID verses s :=
    ((db.AddVerses songID verses s.1).1, (db.AddVerses songID verses s.1).2,
      s.2 ++ [Call.AddVerses songID verses])
  GetVersesBySongID songID limit offset s :=
    ((db.GetVersesBySongID songID limit offset s.1).1, (db.GetVersesBySongID songID limit offset s.1).2,
      s.2 ++ [Call.GetVersesBySongID songID limit offset])

end database

/-! ## package service -/

namespace service

/-- An HTTP response as far as `GetSongDetails` reads it. -/
structure Response where
  StatusCode : Int
  Body : String
  deriving DecidableEq, Repr, Inhabited

/-- What `GetSongDetails` takes from outside the repository: the environment variable,
the `net/http` client and the JSON decoder. -/
structure Env where
  /-- Value of `os.Getenv("API_URL")`. -/
  API_URL : String
  /-- Error of `http.NewRequestWithContext(ctx, GET, url, nil)`, if it rejects the URL. -/
  NewRequest : String → Option Error
  /-- Result of `client.Do(req)` for the request built from the URL. -/
  Do : String → Response × Option Error
  /-- Result of `json.NewDecoder(resp.Body).Decode(&details)` on a body. -/
  Decode : String → models.SongDetails × Option Error

/-- The URL built by `fmt.Sprintf("%s/info?group=%s&song=%s", ...)`. -/
def apiUrl (env : Env) (group songTitle : String) : String :=
  env.API_URL ++ "/info?group=" ++ group ++ "&song=" ++ songTitle

/-- Method `MusicServiceImpl.GetSongDetails`. -/
def GetSongDetails (env : Env) (group songTitle : String) : models.SongDetails × Option Error :=
  let apiUrl := apiUrl env group songTitle
  match env.NewRequest apiUrl with
  | some err => (⟨"", "", ""⟩, some ("ошибка создания запроса: " ++ err))
  | none =>
    match env.Do apiUrl with
    | (_, some err) => (⟨"", "", ""⟩, some ("ошибка выполнения запроса: " ++ err))
    | (resp, none) =>
      if resp.StatusCode ≠ 200 then
        (⟨"", "", ""⟩, some ("неуспешный статус код: " ++ toString resp.StatusCode))
      else
        match env.Decode resp.Body with
        | (_, some err) => (⟨"", "", ""⟩, some ("ошибка декодирования JSON: " ++ err))
        | (details, none) => (details, none)

/-- Function `splitIntoVerses`: the lyrics cut at every pair of line feeds. -/
def splitIntoVerses (text : String) : List String :=
  strings.Split text "\n\n"

/-- The loop of `AddSong` that fills the verse batch: a slice of `len(versesText)` zero
verses, whose element `i` is overwritten for every `i, v` of the range. -/
def makeVerses (id : Int) (versesText : List String) : List models.Verse :=
  versesText.enum.foldl
    (fun verses iv =>
      verses.set iv.1 { ID := 0, SongID := id, VerseNumber := (iv.1 : Int) + 1, Text := iv.2 })
    (List.replicate versesText.length { ID := 0, SongID := 0, VerseNumber := 0, Text := "" })

/-- Method `MusicServiceImpl.AddSong` over the store `db`. -/
def AddSong {σ : Type} (env : Env) (db : database.SongDB σ) (song : models.Song) (s : σ) :
    (Int × Option Error) × σ :=
  match GetSongDetails env song.Group song.Song with
  | (_, some err) => ((0, some ("ошибка получения деталей песни: " ++ err)), s)
  | (details, none) =>
    let song := { song with ReleaseDate := details.ReleaseDate, Link := details.Link }
    match db.AddSong song s with
    | ((_, some err), s1) => ((0, some ("ошибка добавления песни в БД: " ++ err)), s1)
    | ((id, none), s1) =>
      let versesText := splitIntoVerses details.Text
      let verses := makeVerses id versesText
      match db.AddVerses id verses s1 with
      | (some err, s2) => ((0, some ("ошибка добавления куплетов: " ++ err)), s2)
      | (none, s2) => ((id, none), s2)

/-- The interface `service.MusicService` over a store state `σ`. -/
structure MusicService (σ : Type) where
  AddSong : models.Song → σ → (Int × Option Error) × σ
  GetSongs : Int → Int → models.Song → σ → (List models.Song × Option Error) × σ
  GetSongByID : Int → σ → (models.Song × Option Error) × σ
  UpdateSong : models.Song → σ → Option Error × σ
  DeleteSong : Int → σ → Option Error × σ
  AddVerses : Int → List models.Verse → σ → Option Error × σ
  GetVerses : Int → Int → Int → σ → (List models.Verse × Option Error) × σ
  GetSongDetails : String → String → σ → (models.SongDetails × Option Error) × σ

/-- Constructor `NewMusicService`: `MusicServiceImpl` over the store `db`; every method
but `AddSong` and `GetSongDetails` hands its arguments to the store. -/
def NewMusicService {σ : Type} (env : Env) (db : database.SongDB σ) : MusicService σ where
  AddSong := AddSong env db
  GetSongs := db.GetSongs
  GetSongByID := db.GetSongByID
  UpdateSong := db.UpdateSong
  DeleteSong := db.DeleteSong
  AddVerses := db.AddVerses
  GetVerses := db.GetVersesBySongID
  GetSongDetails group songTitle s := (GetSongDetails env group songTitle, s)

/-- One call on the service interface, with its arguments. -/
inductive Call where
  | AddSong (song : models.Song)
  | GetSongs (limit offset : Int) (filter : models.Song)
  | GetSongByID (id : Int)
  | UpdateSong (song : models.Song)
  | DeleteSong (id : Int)
  | AddVerses (songID : Int) (verses : List models.Verse)
  | GetVerses (songID limit offset : Int)
  | GetSongDetails (group songTitle : String)
  deriving DecidableEq, Repr

/-- The service `svc` observed: the same service, which also appends every call it
receives to a log kept beside the state. -/
def recording {σ : Type} (svc : MusicService σ) : MusicService (σ × List Call) where
  AddSong song s := ((svc.AddSong song s.1).1, (svc.AddSong song s.1).2, s.2 ++ [Call.AddSong song])
  GetSongs limit offset filter s :=
    ((svc.GetSongs limit offset filter s.1).1, (svc.GetSongs limit offset filter s.1).2,
      s.2 ++ [Call.GetSongs limit offset filter])
  GetSongByID id s := ((svc.GetSongByID id s.1).1, (svc.GetSongByID id s.1).2, s.2 ++ [Call.GetSongByID id])
  UpdateSong song s := ((svc.UpdateSong song s.1).1, (svc.UpdateSong song s.1).2, s.2 ++ [Call.UpdateSong song])
  DeleteSong id s := ((svc.DeleteSong id s.1).1, (svc.DeleteSong id s.1).2, s.2 ++ [Call.DeleteSong id])
  AddVerses songID verses s :=
    ((svc.AddVerses songID verses s.1).1, (svc.AddVerses songID verses s.1).2,
      s.2 ++ [Call.AddVerses songID verses])
  GetVerses songID limit offset s :=
    ((svc.GetVerses songID limit offset s.1).1, (svc.GetVerses songID limit offset s.1).2,
      s.2 ++ [Call.GetVerses songID limit offset])
  GetSongDetails group songTitle s :=
    ((svc.GetSongDetails group songTitle s.1).1, (svc.GetSongDetails group songTitle s.1).2,
      s.2 ++ [Call.GetSongDetails group songTitle])

end service

/-! ## package strconv (standard library): `Atoi` on a 64-bit platform -/

namespace strconv

/-- The two causes a `*NumError` of `Atoi` can carry. -/
inductive NumError where
  | ErrSyntax
  | ErrRange
  deriving DecidableEq, Repr

/-- Constant `strconv.IntSize` on a 64-bit platform. -/
def IntSize : Nat := 64

/-- Whether the character is one of the bytes '0' to '9'. -/
def isDecimalDigit (c : Char) : Bool := '0' ≤ c && c ≤ '9'

/-- The digit loop of `ParseUint(s, 10, 64)` from the accumulator `n`: any byte that is
not a decimal digit (a letter has a digit value of 10 or more) is a syntax error; an
overflow of `n*10` or of `n*10 + d` in 64 unsigned bits is a range error with `maxVal`. -/
def parseUintLoop : List Char → Nat → Nat × Option NumError
  | [], n => (n, none)
  | c :: cs, n =>
    if isDecimalDigit c then
      let d := c.toNat - '0'.toNat
      if n ≥ (2 ^ 64 - 1) / 10 + 1 then (2 ^ 64 - 1, some NumError.ErrRange)
      else
        let n := n * 10 % 2 ^ 64
        let n1 := (n + d) % 2 ^ 64
        if n1 < n ∨ n1 > 2 ^ 64 - 1 then (2 ^ 64 - 1, some NumError.ErrRange)
        else parseUintLoop cs n1
    else (0, some NumError.ErrSyntax)

/-- Go's `ParseUint(s, 10, 0)`. -/
def ParseUint (s : List Char) : Nat × Option NumError :=
  if s = [] then (0, some NumError.ErrSyntax) else parseUintLoop s 0

/-- Go's `ParseInt(s, 10, 0)`. -/
def ParseInt (s : List Char) : Int × Option NumError :=
  if s = [] then (0, some NumError.ErrSyntax)
  else
    let neg := s.head? = some '-'
    let s1 := if s.head? = some '+' ∨ s.head? = some '-' then s.tail else s
    match ParseUint s1 with
    | (_, some NumError.ErrSyntax) => (0, some NumError.ErrSyntax)
    | (un, _) =>
      let cutoff : Nat := 2 ^ (IntSize - 1)
      if ¬ neg ∧ un ≥ cutoff then ((cutoff : Int) - 1, some NumError.ErrRange)
      else if neg ∧ un > cutoff then (-(cutoff : Int), some NumError.ErrRange)
      else if neg then (-(un : Int), none)
      else ((un : Int), none)

/-- The digit loop of the fast path of `Atoi`. -/
def atoiLoop : List Char → Int → Int × Option NumError
  | [], n => (n, none)
  | ch :: rest, n =>
    if isDecimalDigit ch then atoiLoop rest (n * 10 + ((ch.toNat - '0'.toNat : Nat) : Int))
    else (0, some NumError.ErrSyntax)

/-- Go's `strconv.Atoi`: the fast path for 1 to 18 bytes, `ParseInt` otherwise. -/
def Atoi (s : String) : Int × Option NumError :=
  let sLen := s.utf8ByteSize
  if 0 < sLen ∧ sLen < 19 then
    let neg := s.data.head? = some '-'
    let signed := s.data.head? = some '-' ∨ s.data.head? = some '+'
    let digits := if signed then s.data.tail else s.data
    if signed ∧ digits.length < 1 then (0, some NumError.ErrSyntax)
    else
      match atoiLoop digits 0 with
      | (_, some err) => (0, some err)
      | (n, none) => (if neg then -n else n, none)
  else ParseInt s.data

/-- The value of a run of decimal digits read after digits of value `n`. -/
def digitsValueFrom (n : Nat) (ds : List Char) : Nat :=
  ds.foldl (fun n c => n * 10 + (c.toNat - '0'.toNat)) n

/-- The sign and the digits of a numeral: whether it starts with '-', and what follows
the sign if there is one. -/
def signSplit : List Char → Bool × List Char
  | [] => (false, [])
  | c :: cs => if c = '-' then (true, cs) else if c = '+' then (false, cs) else (false, c :: cs)

/-- The specification's "decimal integer", read as text: an optional sign, then one or
more decimal digits. -/
def isDecimalInteger (s : String) : Bool :=
  !(signSplit s.data).2.isEmpty && (signSplit s.data).2.all isDecimalDigit

/-- The integer a decimal integer denotes, with no bound on its size. -/
def decimalValue (s : String) : Int :=
  if (signSplit s.data).1 then -(digitsValueFrom 0 (signSplit s.data).2 : Int)
  else (digitsValueFrom 0 (signSplit s.data).2 : Int)

end strconv

/-! ## package net/http, chi and render (libraries): the response and the request -/

namespace http

/-- The state of an `http.ResponseWriter`: the header map, the status line once it is
written, and the body written so far. -/
structure ResponseWriter where
  Header : List (String × String)
  Status : Option Int
  Body : String
  deriving DecidableEq, Repr, Inhabited

/-- The values a handler of this repository reads from the request context. -/
structure Context where
  /-- Value under `limitKey`, if it is an `int`. -/
  limit : Option Int
  /-- Value under `offsetKey`, if it is an `int`. -/
  offset : Option Int
  /-- Value under `render.StatusCtxKey`, if it is an `int` (set by `render.Status`). -/
  renderStatus : Option Int
  deriving DecidableEq, Repr, Inhabited

/-- An `*http.Request` as far as the handlers read it. -/
structure Request where
  Body : String
  /-- The pairs of `r.URL.Query()`, in the order of the query string. -/
  Query : List (String × String)
  /-- The keys and values of chi's route context, in matching order. -/
  URLParams : List (String × String)
  Context : Context
  deriving DecidableEq, Repr, Inhabited

/-- Method `Header.Set`. -/
def HeaderSet (h : List (String × String)) (key value : String) : List (String × String) :=
  h.filter (fun kv => kv.1 ≠ key) ++ [(key, value)]

/-- Method `Header.Del`. -/
def HeaderDel (h : List (String × String)) (key : String) : List (String × String) :=
  h.filter (fun kv => kv.1 ≠ key)

/-- Method `ResponseWriter.WriteHeader`: the first status written stands. -/
def WriteHeader (w : ResponseWriter) (code : Int) : ResponseWriter :=
  match w.Status with
  | some _ => w
  | none => { w with Status := some code }

/-- Method `ResponseWriter.Write`: writes status 200 first when none was written. -/
def Write (w : ResponseWriter) (b : String) : ResponseWriter :=
  let w := WriteHeader w 200
  { w with Body := w.Body ++ b }

/-- Function `http.Error`. -/
def Error (w : ResponseWriter) (error : String) (code : Int) : ResponseWriter :=
  let h := HeaderDel w.Header "Content-Length"
  let h := HeaderSet h "Content-Type" "text/plain; charset=utf-8"
  let h := HeaderSet h "X-Content-Type-Options" "nosniff"
  Write (WriteHeader { w with Header := h } code) (error ++ "\n")

/-- Method `url.Values.Get`: the first value of the key, or the empty string. -/
def QueryGet (q : List (String × String)) (key : String) : String :=
  match q.find? (fun kv => kv.1 = key) with
  | some kv => kv.2
  | none => ""

end http

namespace chi

/-- Function `chi.URLParam`: the value of the last route parameter with that key, or the
empty string. -/
def URLParam (r : http.Request) (key : String) : String :=
  match r.URLParams.reverse.find? (fun kv => kv.1 = key) with
  | some kv => kv.2
  | none => ""

end chi

namespace render

/-- Function `render.JSON` applied to a value whose JSON encoding, line feed included,
is `buf`: sets the content type, writes the status kept in the request context when
there is one, and writes the encoding. -/
def JSON (w : http.ResponseWriter) (r : http.Request) (buf : String) : http.ResponseWriter :=
  let w := { w with Header := http.HeaderSet w.Header "Content-Type" "application/json" }
  let w := match r.Context.renderStatus with
    | some status => http.WriteHeader w status
    | none => w
  http.Write w buf

end render

/-! ## package handlers -/

namespace handlers

/-- The `encoding/json` calls of the handlers on repository types. -/
structure Codec where
  /-- Result of `json.NewDecoder(r.Body).Decode(&song)` on a request body. -/
  DecodeSong : String → models.Song × Option Error
  /-- The line `json.Encoder.Encode` writes for a song. -/
  EncodeSong : models.Song → String

/-- A handler: from the response writer, the request and the store to the response
writer and the store afterwards. -/
abbrev HandlerFunc (σ : Type) := http.ResponseWriter → http.Request → σ → http.ResponseWriter × σ

/-- Method `Handler.CreateSong`. -/
def CreateSong {σ : Type} (codec : Codec) (musicService : service.MusicService σ) : HandlerFunc σ :=
  fun w r s =>
    match codec.DecodeSong r.Body with
    | (_, some _) => (http.Error w "неверный формат JSON" 400, s)
    | (song, none) =>
      match musicService.AddSong song s with
      | ((_, some err), s1) => (http.Error w ("ошибка создания песни: " ++ err) 500, s1)
      | ((id, none), s1) => (render.JSON w r ("\x7b\"id\":" ++ toString id ++ "\x7d\n"), s1)

/-- Method `Handler.GetSong`. -/
def GetSong {σ : Type} (codec : Codec) (musicService : service.MusicService σ) : HandlerFunc σ :=
  fun w r s =>
    let idStr := chi.URLParam r "id"
    match strconv.Atoi idStr with
    | (_, some _) => (http.Error w "неверный ID" 400, s)
    | (id, none) =>
      match musicService.GetSongByID id s with
      | ((_, some err), s1) => (http.Error w ("ошибка получения песни: " ++ err) 500, s1)
      | ((song, none), s1) => (render.JSON w r (codec.EncodeSong song), s1)

/-- Method `Handler.UpdateSong`. -/
def UpdateSong {σ : Type} (codec : Codec) (musicService : service.MusicService σ) : HandlerFunc σ :=
  fun w r s =>
    let idStr := chi.URLParam r "id"
    match strconv.Atoi idStr with
    | (_, some _) => (http.Error w "неверный ID" 400, s)
    | (id, none) =>
      match codec.DecodeSong r.Body with
      | (_, some _) => (http.Error w "неверный формат JSON" 400, s)
      | (song, none) =>
        let song := { song with ID := id }
        match musicService.UpdateSong song s with
        | (some err, s1) => (http.Error w ("ошибка обновления песни: " ++ err) 500, s1)
        | (none, s1) => (render.JSON w r "\x7b\"status\":\"ok\"\x7d\n", s1)

/-- Method `Handler.DeleteSong`. -/
def DeleteSong {σ : Type} (musicService : service.MusicService σ) : HandlerFunc σ :=
  fun w r s =>
    let idStr := chi.URLParam r "id"
    match strconv.Atoi idStr with
    | (_, some _) => (http.Error w "неверный ID" 400, s)
    | (id, none) =>
      match musicService.DeleteSong id s with
      | (some err, s1) => (http.Error w ("ошибка удаления песни: " ++ err) 500, s1)
      | (none, s1) => (render.JSON w r "\x7b\"status\":\"ok\"\x7d\n", s1)

/-- Function `parseLimitOffset`: the limit, the offset and the error. -/
def parseLimitOffset (r : http.Request) : Int × Int × Option Error :=
  let limitStr := http.QueryGet r.Query "limit"
  let offsetStr := http.QueryGet r.Query "offset"
  let limitRes : Int × Option Error :=
    if limitStr ≠ "" then
      match strconv.Atoi limitStr with
      | (l, err) => if err ≠ none ∨ l ≤ 0 then (0, some "неверный параметр limit") else (l, none)
    else (10, none)
  match limitRes with
  | (_, some err) => (0, 0, some err)
  | (limit, none) =>
    let offsetRes : Int × Option Error :=
      if offsetStr ≠ "" then
        match strconv.Atoi offsetStr with
        | (o, err) => if err ≠ none ∨ o < 0 then (0, some "неверный параметр offset") else (o, none)
      else (0, none)
    match offsetRes with
    | (_, some err) => (0, 0, some err)
    | (offset, none) => (limit, offset, none)

/-- Middleware `Paginate`. -/
def Paginate {σ : Type} (next : HandlerFunc σ) : HandlerFunc σ :=
  fun w r s =>
    match parseLimitOffset r with
    | (_, _, some _) => (http.Error w "Неверные параметры пагинации" 400, s)
    | (limit, offset, none) =>
      next w { r with Context := { r.Context with limit := some limit, offset := some offset } } s

end handlers

/-! ## package database: the PostgreSQL repository -/

namespace database

/-- A value bound to a placeholder of a statement (`interface{}` holding a string or an int). -/
inductive SQLArg where
  | str (s : String)
  | int (n : Int)
  deriving DecidableEq, Repr

/-- A statement as handed to the driver: the SQL text and the bound arguments, in order. -/
structure Statement where
  query : String
  args : List SQLArg
  deriving DecidableEq, Repr

/-- The calls of the repository on `*sqlx.DB`, over a database state `σ`. -/
structure DB (σ : Type) where
  /-- Result of `QueryRowxContext(ctx, query, args...).Scan(&id)`. -/
  QueryRowScan : String → List SQLArg → σ → (Int × Option Error) × σ
  /-- Error of `ExecContext(ctx, query, args...)`. -/
  Exec : String → List SQLArg → σ → Option Error × σ
  /-- Result of `SelectContext(ctx, &songs, query, args...)`. -/
  SelectSongs : String → List SQLArg → σ → (List models.Song × Option Error) × σ
  /-- Result of `GetContext(ctx, &song, query, args...)`. -/
  GetSong : String → List SQLArg → σ → (models.Song × Option Error) × σ

/-- The statement of `PostgresRepository.AddSong`: the query literal and the arguments
of the `QueryRowxContext` call. -/
def AddSongStatement (song : models.Song) : Statement where
  query := "\n\t\tINSERT INTO songs (\"group\", song, release_date, text, link)\n\t\tVALUES ($1, $2, $3, $4, $5)\n\t\tRETURNING id\n\t"
  args := [SQLArg.str song.Group, SQLArg.str song.Song, SQLArg.str song.ReleaseDate, SQLArg.str song.Link]

/-- Method `PostgresRepository.AddSong`. -/
def AddSong {σ : Type} (db : DB σ) (song : models.Song) (s : σ) : (Int × Option Error) × σ :=
  match db.QueryRowScan (AddSongStatement song).query (AddSongStatement song).args s with
  | ((_, some err), s1) => ((0, some ("ошибка добавления песни: " ++ err)), s1)
  | ((id, none), s1) => ((id, none), s1)

/-- The statement of `PostgresRepository.GetSongs`: the query text and the argument
list as they stand when `SelectContext` is called. `argIndex` only counts up from 1, so
it is a natural number here. -/
def GetSongsStatement (limit offset : Int) (filter : models.Song) : Statement :=
  let query := "\n        SELECT id, \"group\", song, release_date, text, link\n        FROM songs\n        WHERE 1=1\n    "
  let args : List SQLArg := []
  let argIndex : Nat := 1
  let (query, args, argIndex) :=
    if filter.Group ≠ "" then
      (query ++ (" AND \"group\" ILIKE $" ++ toString argIndex),
        args ++ [SQLArg.str ("%" ++ filter.Group ++ "%")], argIndex + 1)
    else (query, args, argIndex)
  let (query, args, argIndex) :=
    if filter.Song ≠ "" then
      (query ++ (" AND song ILIKE $" ++ toString argIndex),
        args ++ [SQLArg.str ("%" ++ filter.Song ++ "%")], argIndex + 1)
    else (query, args, argIndex)
  let (query, args, argIndex) :=
    if filter.ReleaseDate ≠ "" then
      (query ++ (" AND release_date = $" ++ toString argIndex),
        args ++ [SQLArg.str filter.ReleaseDate], argIndex + 1)
    else (query, args, argIndex)
  let (query, args, argIndex) :=
    if filter.Link ≠ "" then
      (query ++ (" AND link = $" ++ toString argIndex),
        args ++ [SQLArg.str filter.Link], argIndex + 1)
    else (query, args, argIndex)
  let query := query ++ (" LIMIT $" ++ toString argIndex ++ " OFFSET $" ++ toString (argIndex + 1))
  let args := args ++ [SQLArg.int limit, SQLArg.int offset]
  { query := query, args := args }

/-- Method `PostgresRepository.GetSongs`. -/
def GetSongs {σ : Type} (db : DB σ) (limit offset : Int) (filter : models.Song) (s : σ) :
    (List models.Song × Option Error) × σ :=
  match db.SelectSongs (GetSongsStatement limit offset filter).query
      (GetSongsStatement limit offset filter).args s with
  | ((_, some err), s1) => (([], some ("ошибка получения песен: " ++ err)), s1)
  | ((songs, none), s1) => ((songs, none), s1)

/-- The statement of `PostgresRepository.UpdateSong`: the query literal and the
arguments of the `ExecContext` call. -/
def UpdateSongStatement (song : models.Song) : Statement where
  query := "\n\t\tUPDATE songs\n\t\tSET \"group\" = $1, song = $2, release_date = $3, text = $4, link = $5\n\t\tWHERE id = $6\n\t"
  args := [SQLArg.str song.Group, SQLArg.str song.Song, SQLArg.str song.ReleaseDate,
    SQLArg.str song.Link, SQLArg.int song.ID]

/-- Method `PostgresRepository.UpdateSong`. -/
def UpdateSong {σ : Type} (db : DB σ) (song : models.Song) (s : σ) : Option Error × σ :=
  match db.Exec (UpdateSongStatement song).query (UpdateSongStatement song).args s with
  | (some err, s1) => (some ("ошибка обновления песни: " ++ err), s1)
  | (none, s1) => (none, s1)

/-! ### Reading a statement -/

/-- The numbers of the placeholders `$k` of a query text, in the order they occur. -/
def placeholders : List Char → List Nat
  | [] => []
  | c :: cs =>
    if c = '$' then
      match cs.takeWhile Char.isDigit with
      | [] => placeholders cs
      | ds => ds.foldl (fun n d => 10 * n + (d.toNat - '0'.toNat)) 0 :: placeholders cs
    else placeholders cs

/-- The number of arguments a statement needs: its highest placeholder number. -/
def placeholderCount (query : String) : Nat :=
  (placeholders query.data).foldl max 0

/-- The argument bound to placeholder `$k`, if the argument list has one. -/
def boundTo (args : List SQLArg) (k : Nat) : Option SQLArg :=
  if k = 0 then none else args[k - 1]?

/-- An `INSERT ... VALUES ... RETURNING` statement read as columns and the placeholder
given to each. -/
structure Insert where
  table : String
  columns : List String
  values : List Nat
  returning : String
  deriving DecidableEq, Repr

/-- The SQL text of an insert, laid out as the literal of `AddSong` is. -/
def Insert.text (q : Insert) : String :=
  "\n\t\tINSERT INTO " ++ q.table ++ " (" ++ ", ".intercalate q.columns ++ ")\n\t\tVALUES ("
    ++ ", ".intercalate (q.values.map (fun k => "$" ++ toString k)) ++ ")\n\t\tRETURNING "
    ++ q.returning ++ "\n\t"

/-- The argument an insert stores in a column. -/
def Insert.binding (q : Insert) (args : List SQLArg) (column : String) : Option SQLArg :=
  match (q.columns.zip q.values).find? (fun cv => cv.1 = column) with
  | some cv => boundTo args cv.2
  | none => none

/-- An `UPDATE ... SET ... WHERE key = $k` statement read as the assignments and the
row condition. -/
structure Update where
  table : String
  assignments : List (String × Nat)
  keyColumn : String
  key : Nat
  deriving DecidableEq, Repr

/-- The SQL text of an update, laid out as the literal of `UpdateSong` is. -/
def Update.text (q : Update) : String :=
  "\n\t\tUPDATE " ++ q.table ++ "\n\t\tSET "
    ++ ", ".intercalate (q.assignments.map (fun cv => cv.1 ++ " = $" ++ toString cv.2))
    ++ "\n\t\tWHERE " ++ q.keyColumn ++ " = $" ++ toString q.key ++ "\n\t"

/-- The argument an update assigns to a column. -/
def Update.binding (q : Update) (args : List SQLArg) (column : String) : Option SQLArg :=
  match q.assignments.find? (fun cv => cv.1 = column) with
  | some cv => boundTo args cv.2
  | none => none

/-- The insert of `AddSong`, read. -/
def AddSongInsert : Insert where
  table := "songs"
  columns := ["\"group\"", "song", "release_date", "text", "link"]
  values := [1, 2, 3, 4, 5]
  returning := "id"

/-- The update of `UpdateSong`, read. -/
def UpdateSongUpdate : Update where
  table := "songs"
  assignments := [("\"group\"", 1), ("song", 2), ("release_date", 3), ("text", 4), ("link", 5)]
  keyColumn := "id"
  key := 6

/-- The filter predicates of a listing as the specification words them: for every
non-empty filter field one condition and its value, in the order group, song,
release date, link; the pattern of a substring match is the value between two `%`. -/
def filterPredicates (filter : models.Song) : List (String × SQLArg) :=
  (if filter.Group = "" then [] else [("\"group\" ILIKE", SQLArg.str ("%" ++ filter.Group ++ "%"))])
  ++ (if filter.Song = "" then [] else [("song ILIKE", SQLArg.str ("%" ++ filter.Song ++ "%"))])
  ++ (if filter.ReleaseDate = "" then [] else [("release_date =", SQLArg.str filter.ReleaseDate)])
  ++ (if filter.Link = "" then [] else [("link =", SQLArg.str filter.Link)])

/-- The listing statement as the specification words it: the select over `songs`, the
predicates joined by `AND`, the i-th one compared with placeholder `$i`, then `LIMIT`
and `OFFSET` on the next two placeholders; the arguments are the predicate values
followed by the limit and the offset. -/
def GetSongsStatementSpec (limit offset : Int) (filter : models.Song) : Statement where
  query :=
    "\n        SELECT id, \"group\", song, release_date, text, link\n        FROM songs\n        WHERE 1=1\n    "
      ++ String.join ((filterPredicates filter).enum.map
          (fun ip => " AND " ++ ip.2.1 ++ " $" ++ toString (ip.1 + 1)))
      ++ " LIMIT $" ++ toString ((filterPredicates filter).length + 1)
      ++ " OFFSET $" ++ toString ((filterPredicates filter).length + 2)
  args := (filterPredicates filter).map (fun p => p.2) ++ [SQLArg.int limit, SQLArg.int offset]

end database

/-! ## package database: the rest of the PostgreSQL repository -/

namespace database

/-- The calls of the repository on `*sqlx.DB` and `*sql.Tx` that concern the table of
verses, over a database state `σ`. The transaction handle returned by `BeginTx` lives
in the state. -/
structure VersesDB (σ : Type) where
  /-- Error of `r.db.BeginTx(ctx, nil)`. -/
  BeginTx : σ → Option Error × σ
  /-- Error of `tx.ExecContext(ctx, query, args...)`. -/
  TxExec : String → List SQLArg → σ → Option Error × σ
  /-- Error of `tx.Commit()`. -/
  Commit : σ → Option Error × σ
  /-- Error of `tx.Rollback()`. -/
  Rollback : σ → Option Error × σ
  /-- Result of `SelectContext(ctx, &verses, query, args...)`. -/
  SelectVerses : String → List SQLArg → σ → (List models.Verse × Option Error) × σ

/-- The statement of `PostgresRepository.GetSongByID`. -/
def GetSongByIDStatement (id : Int) : Statement where
  query := "\n\t\tSELECT id, \"group\", song, release_date, text, link\n\t\tFROM songs\n\t\tWHERE id = $1\n\t"
  args := [SQLArg.int id]

/-- Method `PostgresRepository.GetSongByID`. -/
def GetSongByID {σ : Type} (db : DB σ) (id : Int) (s : σ) : (models.Song × Option Error) × σ :=
  match db.GetSong (GetSongByIDStatement id).query (GetSongByIDStatement id).args s with
  | ((_, some err), s1) =>
    ((⟨0, "", "", "", "", []⟩, some ("ошибка получения песни по ID: " ++ err)), s1)
  | ((song, none), s1) => ((song, none), s1)

/-- The statement of `PostgresRepository.DeleteSong`. -/
def DeleteSongStatement (id : Int) : Statement where
  query := "\n\t\tDELETE FROM songs\n\t\tWHERE id = $1\n\t"
  args := [SQLArg.int id]

/-- Method `PostgresRepository.DeleteSong`: the result of `ExecContext` other than its
error is discarded. -/
def DeleteSong {σ : Type} (db : DB σ) (id : Int) (s : σ) : Option Error × σ :=
  match db.Exec (DeleteSongStatement id).query (DeleteSongStatement id).args s with
  | (some err, s1) => (some ("ошибка удаления песни: " ++ err), s1)
  | (none, s1) => (none, s1)

/-- The statement `AddVerses` executes for one verse of the batch. -/
def AddVersesStatement (songID : Int) (verse : models.Verse) : Statement where
  query := "\n\t\t\tINSERT INTO verses (song_id, verse_number, text)\n\t\t\tVALUES ($1, $2, $3)\n\t\t"
  args := [SQLArg.int songID, SQLArg.int verse.VerseNumber, SQLArg.str verse.Text]

/-- The loop of `AddVerses` over the batch: it returns at the first insert that fails. -/
def addVersesLoop {σ : Type} (db : VersesDB σ) (songID : Int) :
    List models.Verse → σ → Option Error × σ
  | [], s => (none, s)
  | verse :: rest, s =>
    match db.TxExec (AddVersesStatement songID verse).query (AddVersesStatement songID verse).args s with
    | (some err, s1) => (some ("ошибка добавления куплета: " ++ err), s1)
    | (none, s1) => addVersesLoop db songID rest s1

/-- Method `PostgresRepository.AddVerses`. The deferred `tx.Rollback()` runs on every
return after the transaction was begun, also after `tx.Commit()`. -/
def AddVerses {σ : Type} (db : VersesDB σ) (songID : Int) (verses : List models.Verse) (s : σ) :
    Option Error × σ :=
  match db.BeginTx s with
  | (some err, s1) => (some ("ошибка начала транзакции: " ++ err), s1)
  | (none, s1) =>
    match addVersesLoop db songID verses s1 with
    | (some err, s2) => (some err, (db.Rollback s2).2)
    | (none, s2) =>
      match db.Commit s2 with
      | (err, s3) => (err, (db.Rollback s3).2)

/-- The statement of `PostgresRepository.GetVersesBySongID`. -/
def GetVersesBySongIDStatement (songID limit offset : Int) : Statement where
  query := "\n\t\tSELECT id, song_id, verse_number, text\n\t\tFROM verses\n\t\tWHERE song_id = $1\n\t\tLIMIT $2 OFFSET $3\n\t"
  args := [SQLArg.int songID, SQLArg.int limit, SQLArg.int offset]

/-- Method `PostgresRepository.GetVersesBySongID`. -/
def GetVersesBySongID {σ : Type} (db : VersesDB σ) (songID limit offset : Int) (s : σ) :
    (List models.Verse × Option Error) × σ :=
  match db.SelectVerses (GetVersesBySongIDStatement songID limit offset).query
      (GetVersesBySongIDStatement songID limit offset).args s with
  | ((_, some err), s1) => (([], some ("ошибка получения куплетов: " ++ err)), s1)
  | ((verses, none), s1) => ((verses, none), s1)

/-- Constructor `NewPostgresRepository`: the repository as a `SongDB`. -/
def NewPostgresRepository {σ : Type} (db : DB σ) (vdb : VersesDB σ) : SongDB σ where
  AddSong := AddSong db
  GetSongs := GetSongs db
  GetSongByID := GetSongByID db
  UpdateSong := UpdateSong db
  DeleteSong := DeleteSong db
  AddVerses := AddVerses vdb
  GetVersesBySongID := GetVersesBySongID vdb

/-- One call on the transaction interface, with its arguments and the error it returned. -/
inductive TxCall where
  | BeginTx (err : Option Error)
  | TxExec (query : String) (args : List SQLArg) (err : Option Error)
  | Commit (err : Option Error)
  | Rollback (err : Option Error)
  | SelectVerses (query : String) (args : List SQLArg)
  deriving DecidableEq, Repr

/-- The database `db` observed: the same database, which also appends every call it
receives, with its outcome, to a log kept beside the state. -/
def recordingTx {σ : Type} (db : VersesDB σ) : VersesDB (σ × List TxCall) where
  BeginTx s := ((db.BeginTx s.1).1, (db.BeginTx s.1).2, s.2 ++ [TxCall.BeginTx (db.BeginTx s.1).1])
  TxExec query args s :=
    ((db.TxExec query args s.1).1, (db.TxExec query args s.1).2,
      s.2 ++ [TxCall.TxExec query args (db.TxExec query args s.1).1])
  Commit s := ((db.Commit s.1).1, (db.Commit s.1).2, s.2 ++ [TxCall.Commit (db.Commit s.1).1])
  Rollback s := ((db.Rollback s.1).1, (db.Rollback s.1).2, s.2 ++ [TxCall.Rollback (db.Rollback s.1).1])
  SelectVerses query args s :=
    ((db.SelectVerses query args s.1).1, (db.SelectVerses query args s.1).2,
      s.2 ++ [TxCall.SelectVerses query args])

/-- The log entry of the insert of `AddVerses` for one verse, with the error it returned. -/
def TxCall.insert (songID : Int) (verse : models.Verse) (err : Option Error) : TxCall :=
  TxCall.TxExec (AddVersesStatement songID verse).query (AddVersesStatement songID verse).args err

/-- The columns an insert of `AddVerses` supplies for a verse: song_id, verse_number, text. -/
def verseColumns (songID : Int) (verse : models.Verse) : Int × Int × String :=
  (songID, verse.VerseNumber, verse.Text)

/-- What `AddVerses` relies on from a driver and its database, stated for any of them.
`table` reads the persisted rows of `verses` and `pending` the rows inserted by the open
transaction, both as their columns song_id, verse_number, text. Beginning a
transaction, executing a statement in it and rolling back leave the table as it is; a
transaction just begun has no rows of its own; an insert of `AddVerses` that succeeds
adds its row to those of the transaction; a `Commit` that succeeds appends the rows of
the transaction to the table. Nothing is assumed about a `Commit` that returns an
error. -/
structure Transactional {σ : Type} (db : VersesDB σ)
    (table pending : σ → List (Int × Int × String)) : Prop where
  begin_table : ∀ s, table (db.BeginTx s).2 = table s
  begin_pending : ∀ s, (db.BeginTx s).1 = none → pending (db.BeginTx s).2 = []
  exec_table : ∀ query args s, table (db.TxExec query args s).2 = table s
  exec_pending : ∀ songID verse s,
    (db.TxExec (AddVersesStatement songID verse).query (AddVersesStatement songID verse).args s).1 = none →
    pending (db.TxExec (AddVersesStatement songID verse).query (AddVersesStatement songID verse).args s).2
      = pending s ++ [verseColumns songID verse]
  commit_ok : ∀ s, (db.Commit s).1 = none → table (db.Commit s).2 = table s ++ pending s
  rollback_table : ∀ s, table (db.Rollback s).2 = table s

end database

/-! ## package net/url (standard library): reading the query of a URL -/

namespace url

/-- Go's `strings.Cut` with a one-byte separator: the text before the first separator,
the text after it, and whether the separator occurs. -/
def cut (sep : Char) : List Char → List Char × List Char × Bool
  | [] => ([], [], false)
  | c :: cs => if c = sep then ([], cs, true) else ((c :: (cut sep cs).1), (cut sep cs).2.1, (cut sep cs).2.2)

/-- The field `RawQuery` of `url.Parse(rawURL)`: the fragment is cut off at the first
'#', then the query is what follows the first '?'. -/
def rawQuery (rawURL : List Char) : List Char :=
  (cut '?' (cut '#' rawURL).1).2.1

/-- The value of a hexadecimal digit. -/
def unhex (c : Char) : Option Nat :=
  if '0' ≤ c ∧ c ≤ '9' then some (c.toNat - '0'.toNat)
  else if 'a' ≤ c ∧ c ≤ 'f' then some (c.toNat - 'a'.toNat + 10)
  else if 'A' ≤ c ∧ c ≤ 'F' then some (c.toNat - 'A'.toNat + 10)
  else none

/-- Go's `url.QueryUnescape`: '+' is a space and "%XY" is the byte with that code; a
'%' not followed by two hexadecimal digits is an error (`none`). The byte is read as
the character with that code: this is exact for escapes below 0x80 only, since Go reads
the bytes of escapes of 0x80 and above together as UTF-8. -/
def QueryUnescape : List Char → Option (List Char)
  | [] => some []
  | c :: rest =>
    if c = '%' then
      match rest with
      | a :: b :: rest' =>
        match unhex a, unhex b, QueryUnescape rest' with
        | some h, some l, some r => some (Char.ofNat (16 * h + l) :: r)
        | _, _, _ => none
      | _ => none
    else if c = '+' then (QueryUnescape rest).map (fun r => ' ' :: r)
    else (QueryUnescape rest).map (fun r => c :: r)

/-- The pieces of a text between the occurrences of a separator byte. -/
def fields (sep : Char) : List Char → List (List Char)
  | [] => [[]]
  | c :: cs =>
    if c = sep then [] :: fields sep cs
    else
      match fields sep cs with
      | f :: fs => (c :: f) :: fs
      | [] => [[c]]

/-- The pair one piece of a query contributes in `url.ParseQuery`: none for an empty
piece, a piece with a ';' or a piece whose key or value does not unescape. -/
def parsePair (piece : List Char) : Option (String × String) :=
  if piece.contains ';' then none
  else if piece = [] then none
  else
    match QueryUnescape (cut '=' piece).1, QueryUnescape (cut '=' piece).2.1 with
    | some key, some value => some (String.mk key, String.mk value)
    | _, _ => none

/-- The values of `url.ParseQuery(query)` as pairs, in the order of the query. -/
def ParseQuery (query : List Char) : List (String × String) :=
  (fields '&' query).filterMap parsePair

/-- The query parameters of a URL: `url.Parse(rawURL)` followed by `URL.Query()`. -/
def Query (rawURL : String) : List (String × String) :=
  ParseQuery (rawQuery rawURL.data)

end url

/-! ## Stand-ins for the outside world, used to run the model on concrete inputs -/

namespace fixtures

/-- An external API that answers every request with status 200 and the given details. -/
def apiAnswering (details : models.SongDetails) : service.Env where
  API_URL := "http://api.test"
  NewRequest := fun _ => none
  Do := fun _ => ({ StatusCode := 200, Body := "" }, none)
  Decode := fun _ => (details, none)

/-- An external API that cannot be reached. -/
def apiDown : service.Env where
  API_URL := "http://api.test"
  NewRequest := fun _ => none
  Do := fun _ => ({ StatusCode := 0, Body := "" }, some "connection refused")
  Decode := fun _ => (⟨"", "", ""⟩, some "EOF")

/-- The rows of an in-memory store. -/
structure Store where
  songs : List models.Song
  verses : List models.Verse
  deriving DecidableEq, Repr, Inhabited

/-- An in-memory store: songs get the identifiers 1, 2, ... in order of insertion; when
`versesFail` is set every verse batch is refused and leaves the rows as they were. -/
def memDB (versesFail : Bool) : database.SongDB Store where
  AddSong song s :=
    (((s.songs.length : Int) + 1, none),
      { s with songs := s.songs ++ [{ song with ID := (s.songs.length : Int) + 1 }] })
  GetSongs _ _ _ s := ((s.songs, none), s)
  GetSongByID id s :=
    match s.songs.find? (fun x => x.ID = id) with
    | some x => ((x, none), s)
    | none => ((default, some "sql: no rows in result set"), s)
  UpdateSong song s :=
    (none, { s with songs := s.songs.map (fun x => if x.ID = song.ID then { song with Verses := [] } else x) })
  DeleteSong id s := (none, { s with songs := s.songs.filter (fun x => x.ID ≠ id) })
  AddVerses _ verses s :=
    if versesFail then (some "pq: insert failed", s)
    else (none, { s with verses := s.verses ++ verses })
  GetVersesBySongID songID _ _ s := ((s.verses.filter (fun v => v.SongID = songID), none), s)

/-- A song as a caller posts it, with a release date and a link of the caller's own. -/
def posted : models.Song :=
  { ID := 0, Group := "Muse", Song := "Hysteria", ReleaseDate := "01.01.1999", Link := "http://caller", Verses := [] }

/-- Details as the external API returns them. -/
def enriched : models.SongDetails :=
  { ReleaseDate := "16.07.2006", Text := "A\n\nB\n\nC", Link := "http://api/link" }

/-- A JSON codec that reads the song `song` from every request body. -/
def codecReading (song : models.Song) : handlers.Codec where
  DecodeSong := fun _ => (song, none)
  EncodeSong := fun x => "\x7b\"id\":" ++ toString x.ID ++ "\x7d\n"

/-- A JSON codec that rejects every request body. -/
def codecRejecting : handlers.Codec where
  DecodeSong := fun _ => (default, some "invalid character")
  EncodeSong := fun x => "\x7b\"id\":" ++ toString x.ID ++ "\x7d\n"

/-- A response writer nothing was written to. -/
def freshWriter : http.ResponseWriter := { Header := [], Status := none, Body := "" }

/-- The request `POST /songs` with a song as body, as the router of `main` passes it on. -/
def postSongs : http.Request where
  Body := "\x7b\"group\":\"Muse\",\"song\":\"Hysteria\"\x7d"
  Query := []
  URLParams := []
  Context := { limit := none, offset := none, renderStatus := none }

/-- A request on `/songs/{id}` whose path parameter is `id`. -/
def songRequest (id : String) : http.Request where
  Body := "\x7b\"group\":\"Muse\",\"song\":\"Hysteria\"\x7d"
  Query := []
  URLParams := [("id", id)]
  Context := { limit := none, offset := none, renderStatus := none }

/-- A request `GET /songs` with the given query parameters. -/
def listRequest (query : List (String × String)) : http.Request where
  Body := ""
  Query := query
  URLParams := []
  Context := { limit := none, offset := none, renderStatus := none }

/-- A handler standing for the one `Paginate` wraps: it answers with an empty JSON list. -/
def emptyList : handlers.HandlerFunc Store :=
  fun w r s => (render.JSON w r "[]\n", s)

/-- The state of a PostgreSQL database as the repository sees it: the rows of the two
tables, the rows inserted by the open transaction if one is open, and the statements
received outside a transaction. The serial identifier of a verse row is not modelled
and stays 0. -/
structure Pg where
  songs : List models.Song
  verses : List models.Verse
  pending : Option (List models.Verse)
  statements : List database.Statement
  deriving DecidableEq, Repr, Inhabited

/-- The driver over `Pg` outside transactions. Every statement is logged and refused
when the number of arguments is not the number of placeholders; the delete of
`DeleteSong` removes the rows with that identifier, whether or not there are any. -/
def pgDriver : database.DB Pg where
  QueryRowScan query args s :=
    if args.length ≠ database.placeholderCount query then
      ((0, some "pq: wrong number of parameters"), { s with statements := s.statements ++ [⟨query, args⟩] })
    else ((0, some "statement not supported"), { s with statements := s.statements ++ [⟨query, args⟩] })
  Exec query args s :=
    if args.length ≠ database.placeholderCount query then
      (some "pq: wrong number of parameters", { s with statements := s.statements ++ [⟨query, args⟩] })
    else if query = (database.DeleteSongStatement 0).query then
      match args with
      | [database.SQLArg.int id] =>
        (none, { s with songs := s.songs.filter (fun x => x.ID ≠ id),
                        statements := s.statements ++ [⟨query, args⟩] })
      | _ => (some "pq: invalid input syntax", { s with statements := s.statements ++ [⟨query, args⟩] })
    else (some "statement not supported", { s with statements := s.statements ++ [⟨query, args⟩] })
  SelectSongs query args s :=
    (([], some "statement not supported"), { s with statements := s.statements ++ [⟨query, args⟩] })
  GetSong query args s :=
    ((default, some "statement not supported"), { s with statements := s.statements ++ [⟨query, args⟩] })

/-- The row an insert into `verses` adds for the arguments song_id, verse_number, text. -/
def verseRow (songID verseNumber : Int) (text : String) : models.Verse :=
  { ID := 0, SongID := songID, VerseNumber := verseNumber, Text := text }

/-- Transactions over `Pg`. `beginErr` and `commitErr` are the errors of `BeginTx` and
`Commit`, if they fail; `insertErr` is the error of an insert with the given arguments
in the given state, if it fails (a constraint, a lost connection). An insert that
succeeds adds its row to the rows of the open transaction; `Commit` appends them to the
table when it succeeds; when it fails this store drops them, as a server does that
aborts the transaction at commit (another may fail after applying it); `Rollback` drops
them. After `Commit` or `Rollback` the transaction is finished and both only return an
error. -/
def pgVerses (beginErr : Option Error) (insertErr : List database.SQLArg → Pg → Option Error)
    (commitErr : Option Error) : database.VersesDB Pg where
  BeginTx s :=
    match beginErr with
    | some e => (some e, s)
    | none => (none, { s with pending := some [] })
  TxExec _ args s :=
    match s.pending with
    | none => (some "sql: transaction has already been committed or rolled back", s)
    | some p =>
      match insertErr args s with
      | some e => (some e, s)
      | none =>
        match args with
        | [database.SQLArg.int songID, database.SQLArg.int n, database.SQLArg.str text] =>
          (none, { s with pending := some (p ++ [verseRow songID n text]) })
        | _ => (some "pq: wrong number of parameters", s)
  Commit s :=
    match s.pending with
    | none => (some "sql: transaction has already been committed or rolled back", s)
    | some p =>
      match commitErr with
      | some e => (some e, { s with pending := none })
      | none => (none, { s with verses := s.verses ++ p, pending := none })
  Rollback s :=
    match s.pending with
    | none => (some "sql: transaction has already been committed or rolled back", s)
    | some _ => (none, { s with pending := none })
  SelectVerses _ args s :=
    match args with
    | [database.SQLArg.int songID, _, _] => ((s.verses.filter (fun v => v.SongID = songID), none), s)
    | _ => (([], some "pq: wrong number of parameters"), s)

/-- The unique constraint on (song_id, verse_number): an insert fails when the table or
the open transaction already holds a row with that pair. -/
def uniqueVerseNumber (args : List database.SQLArg) (s : Pg) : Option Error :=
  match args with
  | [database.SQLArg.int songID, database.SQLArg.int n, _] =>
    if (s.verses ++ s.pending.getD []).any (fun v => v.SongID = songID ∧ v.VerseNumber = n) then
      some "pq: duplicate key value violates unique constraint"
    else none
  | _ => none

/-- The persisted rows of `verses` in `Pg`, as their columns. -/
def pgTable (s : Pg) : List (Int × Int × String) :=
  s.verses.map (fun v => (v.SongID, v.VerseNumber, v.Text))

/-- The rows inserted by the open transaction of `Pg`, as their columns. -/
def pgPending (s : Pg) : List (Int × Int × String) :=
  (s.pending.getD []).map (fun v => (v.SongID, v.VerseNumber, v.Text))

end fixtures

/-! ## Theorems -/

/-! ### strings.Split -/

namespace strings

theorem Index_nil_of_ne_nil {sep : List Char} (hsep : sep ≠ []) : Index [] sep = none := by
  cases sep with
  | nil => exact absurd rfl hsep
  | cons a t => simp [Index]

theorem not_infix_of_Index_none {sep : List Char} (hsep : sep ≠ []) :
    ∀ s : List Char, Index s sep = none → ¬ sep <:+: s := by
  intro s
  induction s with
  | nil =>
    intro _ h
    exact hsep (List.eq_nil_of_infix_nil h)
  | cons c cs ih =>
    intro h hin
    unfold Index at h
    split at h
    · cases h
    · rename_i hp
      rcases List.infix_cons_iff.mp hin with h1 | h2
      · exact hp (List.isPrefixOf_iff_prefix.mpr h1)
      · refine ih ?_ h2
        cases hI : Index cs sep with
        | none => rfl
        | some m => simp [hI] at h

theorem Index_some_spec {sep : List Char} (hsep : sep ≠ []) :
    ∀ (s : List Char) (m : Nat), Index s sep = some m →
      s = s.take m ++ sep ++ s.drop (m + sep.length) ∧ ¬ sep <:+: s.take m := by
  intro s
  induction s with
  | nil =>
    intro m h
    rw [Index_nil_of_ne_nil hsep] at h
    cases h
  | cons c cs ih =>
    intro m h
    unfold Index at h
    split at h
    · rename_i hp
      cases h
      have hpre := List.isPrefixOf_iff_prefix.mp hp
      refine ⟨?_, ?_⟩
      · have := List.prefix_iff_eq_append.mp hpre
        simpa using this.symm
      · intro hin
        exact hsep (List.eq_nil_of_infix_nil (by simpa using hin))
    · rename_i hp
      cases hI : Index cs sep with
      | none => simp [hI] at h
      | some m' =>
        simp [hI] at h
        subst h
        obtain ⟨h1, h2⟩ := ih m' hI
        refine ⟨?_, ?_⟩
        · have e : m' + 1 + sep.length = (m' + sep.length) + 1 := by omega
          rw [e, List.take_succ_cons, List.drop_succ_cons]
          simpa using h1
        · intro hin
          rw [List.take_succ_cons] at hin
          rcases List.infix_cons_iff.mp hin with h3 | h4
          · apply hp
            apply List.isPrefixOf_iff_prefix.mpr
            exact h3.trans ((List.prefix_cons_inj c).mpr (List.take_prefix m' cs))
          · exact h2 h4

theorem genSplitLoop_ne_nil (k : Nat) (s sep : List Char) : genSplitLoop k s sep ≠ [] := by
  cases k with
  | zero => simp [genSplitLoop]
  | succ k =>
    unfold genSplitLoop
    split <;> simp

theorem intercalate_genSplitLoop {sep : List Char} (hsep : sep ≠ []) :
    ∀ (k : Nat) (s : List Char), sep.intercalate (genSplitLoop k s sep) = s := by
  intro k
  induction k with
  | zero => intro s; simp [genSplitLoop, List.intercalate]
  | succ k ih =>
    intro s
    unfold genSplitLoop
    split
    · simp [List.intercalate]
    · rename_i m hm
      obtain ⟨h1, _⟩ := Index_some_spec hsep s m hm
      have hne := genSplitLoop_ne_nil k (s.drop (m + sep.length)) sep
      have hrec := ih (s.drop (m + sep.length))
      cases hg : genSplitLoop k (s.drop (m + sep.length)) sep with
      | nil => exact absurd hg hne
      | cons y ys =>
        rw [hg] at hrec
        simp only [List.intercalate] at hrec ⊢
        rw [List.intersperse_cons₂, List.flatten_cons, List.flatten_cons, hrec]
        simpa [List.append_assoc] using h1.symm

theorem countLoop_acc (sep : List Char) :
    ∀ (fuel : Nat) (s : List Char) (n : Nat), countLoop fuel s sep n = n + countLoop fuel s sep 0 := by
  intro fuel
  induction fuel with
  | zero => intro s n; simp [countLoop]
  | succ fuel ih =>
    intro s n
    unfold countLoop
    split
    · simp
    · rw [ih _ (n + 1), ih _ (0 + 1)]; omega

theorem genSplitLoop_of_Index_none {sep s : List Char} (h : Index s sep = none) (k : Nat) :
    genSplitLoop k s sep = [s] := by
  cases k with
  | zero => rfl
  | succ k => simp [genSplitLoop, h]

theorem length_drop_of_Index_some {sep : List Char} (hsep : sep ≠ []) {s : List Char} {m : Nat}
    (h : Index s sep = some m) : (s.drop (m + sep.length)).length < s.length := by
  have h1 := (Index_some_spec hsep s m h).1
  have h2 := congrArg List.length h1
  have h3 : 0 < sep.length := List.length_pos.mpr hsep
  simp only [List.length_append] at h2
  have h4 : (List.take m s).length ≤ m := List.length_take_le m s
  simp only [List.length_drop] at h2 ⊢
  omega

/-- With at least as many rounds as `Count` finds occurrences, no segment contains the separator. -/
theorem genSplitLoop_sepFree_of_count {sep : List Char} (hsep : sep ≠ []) :
    ∀ (fuel : Nat) (s : List Char), s.length ≤ fuel → ∀ k, countLoop fuel s sep 0 ≤ k →
      ∀ x ∈ genSplitLoop k s sep, ¬ sep <:+: x := by
  intro fuel
  induction fuel with
  | zero =>
    intro s hs k _ x hx
    have : s = [] := List.length_eq_zero.mp (Nat.le_zero.mp hs)
    subst this
    rw [genSplitLoop_of_Index_none (Index_nil_of_ne_nil hsep)] at hx
    simp at hx
    subst hx
    exact fun h => hsep (List.eq_nil_of_infix_nil h)
  | succ fuel ih =>
    intro s hs k hk x hx
    cases hI : Index s sep with
    | none =>
      rw [genSplitLoop_of_Index_none hI] at hx
      simp at hx
      subst hx
      exact not_infix_of_Index_none hsep _ hI
    | some m =>
      have hlen := length_drop_of_Index_some hsep hI
      simp only [countLoop, hI] at hk
      rw [countLoop_acc] at hk
      cases k with
      | zero => omega
      | succ k =>
        simp only [genSplitLoop, hI, List.mem_cons] at hx
        rcases hx with hx | hx
        · subst hx
          exact (Index_some_spec hsep s m hI).2
        · exact ih _ (by omega) k (by omega) x hx

/-- With at least as many rounds as the text has bytes, no segment contains the separator. -/
theorem genSplitLoop_sepFree_of_length {sep : List Char} (hsep : sep ≠ []) :
    ∀ (k : Nat) (s : List Char), s.length ≤ k → ∀ x ∈ genSplitLoop k s sep, ¬ sep <:+: x := by
  intro k
  induction k with
  | zero =>
    intro s hs x hx
    have : s = [] := List.length_eq_zero.mp (Nat.le_zero.mp hs)
    subst this
    simp [genSplitLoop] at hx
    subst hx
    exact fun h => hsep (List.eq_nil_of_infix_nil h)
  | succ k ih =>
    intro s hs x hx
    cases hI : Index s sep with
    | none =>
      rw [genSplitLoop_of_Index_none hI] at hx
      simp at hx
      subst hx
      exact not_infix_of_Index_none hsep _ hI
    | some m =>
      have hlen := length_drop_of_Index_some hsep hI
      simp only [genSplitLoop, hI, List.mem_cons] at hx
      rcases hx with hx | hx
      · subst hx
        exact (Index_some_spec hsep s m hI).2
      · exact ih _ (by omega) x hx

theorem intercalate_genSplit {sep : List Char} (hsep : sep ≠ []) (s : List Char) :
    sep.intercalate (genSplit s sep) = s := by
  unfold genSplit
  have : sep.isEmpty = false := by cases sep <;> simp_all
  simp only [this]
  exact intercalate_genSplitLoop hsep _ _

theorem genSplit_sepFree {sep : List Char} (hsep : 2 ≤ sep.length) (s : List Char) :
    ∀ x ∈ genSplit s sep, ¬ sep <:+: x := by
  have hne : sep ≠ [] := by intro h; subst h; simp at hsep
  have hE : sep.isEmpty = false := by cases sep <;> simp_all
  intro x hx
  unfold genSplit at hx
  simp only [hE] at hx
  by_cases hc : Count s sep + 1 > s.length + 1
  · simp only [hc, if_true] at hx
    exact genSplitLoop_sepFree_of_length hne _ s (by simp) x hx
  · simp only [hc, if_false] at hx
    refine genSplitLoop_sepFree_of_count hne s.length s (le_refl _) _ ?_ x hx
    unfold Count
    have h0 : ¬ sep.length = 0 := by omega
    have h1 : ¬ sep.length = 1 := by omega
    simp [h0, h1]

end strings

/-! ### service.AddSong -/

namespace service

/-- The verse the loop of `AddSong` stores at index `i` for the segment `v`. -/
theorem makeVerses_loop (id : Int) :
    ∀ (versesText : List String) (pre : List models.Verse) (d : models.Verse),
      (versesText.enumFrom pre.length).foldl
        (fun verses iv =>
          verses.set iv.1 { ID := 0, SongID := id, VerseNumber := (iv.1 : Int) + 1, Text := iv.2 })
        (pre ++ List.replicate versesText.length d)
      = pre ++ (versesText.enumFrom pre.length).map
          (fun iv => ({ ID := 0, SongID := id, VerseNumber := (iv.1 : Int) + 1, Text := iv.2 } : models.Verse)) := by
  intro versesText
  induction versesText with
  | nil => intro pre d; simp
  | cons v vs ih =>
    intro pre d
    simp only [List.enumFrom_cons, List.foldl_cons, List.length_cons, List.replicate_succ, List.map_cons]
    have hset : (pre ++ d :: List.replicate vs.length d).set pre.length
          { ID := 0, SongID := id, VerseNumber := (pre.length : Int) + 1, Text := v }
        = (pre ++ [({ ID := 0, SongID := id, VerseNumber := (pre.length : Int) + 1, Text := v } : models.Verse)])
            ++ List.replicate vs.length d := by
      simp [List.set_append]
    rw [hset]
    have := ih (pre ++ [({ ID := 0, SongID := id, VerseNumber := (pre.length : Int) + 1, Text := v } : models.Verse)]) d
    simp only [List.length_append, List.length_singleton] at this
    rw [this]
    simp

theorem makeVerses_eq_map (id : Int) (versesText : List String) :
    makeVerses id versesText = versesText.enum.map
      (fun iv => ({ ID := 0, SongID := id, VerseNumber := (iv.1 : Int) + 1, Text := iv.2 } : models.Verse)) := by
  have := makeVerses_loop id versesText [] { ID := 0, SongID := 0, VerseNumber := 0, Text := "" }
  simpa [makeVerses, List.enum] using this

theorem makeVerses_length (id : Int) (versesText : List String) :
    (makeVerses id versesText).length = versesText.length := by
  simp [makeVerses_eq_map]

theorem makeVerses_getElem? (id : Int) (versesText : List String) (i : Nat) (h : i < versesText.length) :
    (makeVerses id versesText)[i]? =
      some { ID := 0, SongID := id, VerseNumber := (i : Int) + 1, Text := versesText[i] } := by
  rw [makeVerses_eq_map]
  simp [List.enum, List.getElem?_enumFrom, h, List.getElem?_eq_getElem]

theorem splitIntoVerses_join (text : String) :
    "\n\n".data.intercalate ((splitIntoVerses text).map String.data) = text.data := by
  unfold splitIntoVerses strings.Split
  rw [List.map_map]
  have : (String.data ∘ String.mk) = id := by funext l; rfl
  rw [this, List.map_id]
  exact strings.intercalate_genSplit (by decide) _

theorem splitIntoVerses_sepFree (text : String) :
    ∀ seg ∈ splitIntoVerses text, ¬ "\n\n".data <:+: seg.data := by
  intro seg hseg
  unfold splitIntoVerses strings.Split at hseg
  rw [List.mem_map] at hseg
  obtain ⟨l, hl, rfl⟩ := hseg
  exact strings.genSplit_sepFree (by decide) _ l hl

/-- The run of `AddSong` over the observed store, when enrichment and the insert of the
song succeed: the result is decided by the verse batch call. -/
theorem AddSong_recording_of_added {σ : Type} (env : Env) (db : database.SongDB σ)
    (song : models.Song) (s s1 : σ) (log : List database.Call) (details : models.SongDetails) (id : Int)
    (hDetails : GetSongDetails env song.Group song.Song = (details, none))
    (hAdd : db.AddSong { song with ReleaseDate := details.ReleaseDate, Link := details.Link } s
      = ((id, none), s1)) :
    AddSong env (database.recording db) song (s, log) =
      ((match (db.AddVerses id (makeVerses id (splitIntoVerses details.Text)) s1).1 with
        | some err => (0, some ("ошибка добавления куплетов: " ++ err))
        | none => (id, none)),
       (db.AddVerses id (makeVerses id (splitIntoVerses details.Text)) s1).2,
       log ++ [database.Call.AddSong { song with ReleaseDate := details.ReleaseDate, Link := details.Link },
          database.Call.AddVerses id (makeVerses id (splitIntoVerses details.Text))]) := by
  simp only [AddSong, hDetails, database.recording, hAdd]
  cases hV : (db.AddVerses id (makeVerses id (splitIntoVerses details.Text)) s1).1 <;> simp

/-- C1. When enrichment returns `details` and the store returns `id` for the song,
`AddSong` makes exactly two storage calls, the insert of the song and one `AddVerses`
call for `id`; the batch of that call has one verse per segment of `details.Text`
split at "\n\n", in order, the verse at index `i` having `VerseNumber = i + 1`,
`SongID = id` and the segment as `Text`. The segments joined by "\n\n" give back the
text and none contains "\n\n". For the text "A\n\nB\n\nC" the batch is the three verses
numbered 1, 2, 3 with the texts "A", "B", "C". -/
theorem AddSong_verse_batch {σ : Type} (env : Env) (db : database.SongDB σ)
    (song : models.Song) (s s1 : σ) (details : models.SongDetails) (id : Int)
    (hDetails : GetSongDetails env song.Group song.Song = (details, none))
    (hAdd : db.AddSong { song with ReleaseDate := details.ReleaseDate, Link := details.Link } s
      = ((id, none), s1)) :
    (AddSong env (database.recording db) song (s, [])).2.2 =
        [database.Call.AddSong { song with ReleaseDate := details.ReleaseDate, Link := details.Link },
         database.Call.AddVerses id (makeVerses id (splitIntoVerses details.Text))]
    ∧ (makeVerses id (splitIntoVerses details.Text)).length = (splitIntoVerses details.Text).length
    ∧ (∀ (i : Nat) (h : i < (splitIntoVerses details.Text).length),
        (makeVerses id (splitIntoVerses details.Text))[i]? =
          some { ID := 0, SongID := id, VerseNumber := (i : Int) + 1,
                 Text := (splitIntoVerses details.Text)[i] })
    ∧ "\n\n".data.intercalate ((splitIntoVerses details.Text).map String.data) = details.Text.data
    ∧ (∀ seg ∈ splitIntoVerses details.Text, ¬ "\n\n".data <:+: seg.data)
    ∧ (details.Text = "A\n\nB\n\nC" →
        makeVerses id (splitIntoVerses details.Text) =
          [{ ID := 0, SongID := id, VerseNumber := 1, Text := "A" },
           { ID := 0, SongID := id, VerseNumber := 2, Text := "B" },
           { ID := 0, SongID := id, VerseNumber := 3, Text := "C" }]) := by
  refine ⟨?_, makeVerses_length _ _, makeVerses_getElem? _ _, splitIntoVerses_join _,
    splitIntoVerses_sepFree _, ?_⟩
  · rw [AddSong_recording_of_added env db song s s1 [] details id hDetails hAdd]
    simp
  · intro hText
    have hs : splitIntoVerses "A\n\nB\n\nC" = ["A", "B", "C"] := by decide
    rw [hText, hs, makeVerses_eq_map]
    simp [List.enum]

/-- C1, run: the song "Hysteria" posted to the in-memory store with lyrics "A\n\nB\n\nC". -/
theorem AddSong_verse_batch_witness :
    GetSongDetails (fixtures.apiAnswering fixtures.enriched) fixtures.posted.Group fixtures.posted.Song
      = (fixtures.enriched, none)
    ∧ (AddSong (fixtures.apiAnswering fixtures.enriched) (database.recording (fixtures.memDB false))
        fixtures.posted (⟨[], []⟩, [])).2.2 =
      [database.Call.AddSong
         { ID := 0, Group := "Muse", Song := "Hysteria", ReleaseDate := "16.07.2006",
           Link := "http://api/link", Verses := [] },
       database.Call.AddVerses 1
         [{ ID := 0, SongID := 1, VerseNumber := 1, Text := "A" },
          { ID := 0, SongID := 1, VerseNumber := 2, Text := "B" },
          { ID := 0, SongID := 1, VerseNumber := 3, Text := "C" }]] := by
  have h := AddSong_verse_batch (fixtures.apiAnswering fixtures.enriched) (fixtures.memDB false)
    fixtures.posted ⟨[], []⟩ _ fixtures.enriched 1 (by decide) rfl
  refine ⟨by decide, ?_⟩
  rw [h.1, h.2.2.2.2.2 rfl]
  rfl

/-- C2. When the enrichment call fails, `AddSong` returns identifier 0 with an error,
and the observed store shows no call at all (so none to storage `AddSong` or
`AddVerses`) and the state it had before. -/
theorem AddSong_enrichment_failure {σ : Type} (env : Env) (db : database.SongDB σ)
    (song : models.Song) (s : σ) (log : List database.Call) (details : models.SongDetails) (err : Error)
    (hDetails : GetSongDetails env song.Group song.Song = (details, some err)) :
    AddSong env (database.recording db) song (s, log)
        = ((0, some ("ошибка получения деталей песни: " ++ err)), (s, log))
    ∧ AddSong env db song s = ((0, some ("ошибка получения деталей песни: " ++ err)), s) := by
  simp [AddSong, hDetails]

/-- C2, run: the external API is down, the store holds one song already. -/
theorem AddSong_enrichment_failure_witness :
    GetSongDetails fixtures.apiDown fixtures.posted.Group fixtures.posted.Song
      = (⟨"", "", ""⟩, some "ошибка выполнения запроса: connection refused")
    ∧ AddSong fixtures.apiDown (database.recording (fixtures.memDB false)) fixtures.posted
        (⟨[fixtures.posted], []⟩, [])
      = ((0, some ("ошибка получения деталей песни: " ++ "ошибка выполнения запроса: connection refused")),
         (⟨[fixtures.posted], []⟩, [])) :=
  ⟨by decide,
   (AddSong_enrichment_failure fixtures.apiDown (fixtures.memDB false) fixtures.posted
      ⟨[fixtures.posted], []⟩ [] ⟨"", "", ""⟩ _ (by decide)).1⟩

/-- C3. When enrichment succeeds, the first storage call of `AddSong` is the insert of
a song record whose `ReleaseDate` and `Link` are those of the enrichment result and
whose `Group` and `Song` (and `ID`, `Verses`) are the caller's; no later call inserts
a song. -/
theorem AddSong_stores_enriched_song {σ : Type} (env : Env) (db : database.SongDB σ)
    (song : models.Song) (s : σ) (details : models.SongDetails)
    (hDetails : GetSongDetails env song.Group song.Song = (details, none)) :
    ∃ rest, (AddSong env (database.recording db) song (s, [])).2.2 =
        database.Call.AddSong
          { ID := song.ID, Group := song.Group, Song := song.Song,
            ReleaseDate := details.ReleaseDate, Link := details.Link, Verses := song.Verses } :: rest
      ∧ ∀ c ∈ rest, ∀ x, c ≠ database.Call.AddSong x := by
  rcases hAdd : db.AddSong { song with ReleaseDate := details.ReleaseDate, Link := details.Link } s
    with ⟨⟨id, e⟩, s1⟩
  cases e with
  | some err =>
    refine ⟨[], ?_, by simp⟩
    simp [AddSong, hDetails, database.recording, hAdd]
  | none =>
    refine ⟨[database.Call.AddVerses id (makeVerses id (splitIntoVerses details.Text))], ?_, by simp⟩
    rw [AddSong_recording_of_added env db song s s1 [] details id hDetails hAdd]
    simp

/-- C3, run: the caller's release date and link are replaced by those of the API. -/
theorem AddSong_stores_enriched_song_witness :
    GetSongDetails (fixtures.apiAnswering fixtures.enriched) "Muse" "Hysteria" = (fixtures.enriched, none)
    ∧ ∃ rest, (AddSong (fixtures.apiAnswering fixtures.enriched) (database.recording (fixtures.memDB false))
        fixtures.posted (⟨[], []⟩, [])).2.2 =
        database.Call.AddSong
          { ID := 0, Group := "Muse", Song := "Hysteria",
            ReleaseDate := "16.07.2006", Link := "http://api/link", Verses := [] } :: rest
      ∧ ∀ c ∈ rest, ∀ x, c ≠ database.Call.AddSong x :=
  ⟨by decide,
   AddSong_stores_enriched_song (fixtures.apiAnswering fixtures.enriched) (fixtures.memDB false)
     fixtures.posted ⟨[], []⟩ fixtures.enriched (by decide)⟩

/-- C4. When enrichment and the insert of the song succeed and storage `AddVerses`
then fails, `AddSong` returns identifier 0 with an error; the observed store shows the
two calls `AddSong` and `AddVerses` and nothing after them (no delete, no other
compensating call), and the store is left as the failed `AddVerses` left the store
that already holds the new song. -/
theorem AddSong_verses_failure_keeps_song {σ : Type} (env : Env) (db : database.SongDB σ)
    (song : models.Song) (s s1 s2 : σ) (details : models.SongDetails) (id : Int) (err : Error)
    (hDetails : GetSongDetails env song.Group song.Song = (details, none))
    (hAdd : db.AddSong { song with ReleaseDate := details.ReleaseDate, Link := details.Link } s
      = ((id, none), s1))
    (hVerses : db.AddVerses id (makeVerses id (splitIntoVerses details.Text)) s1 = (some err, s2)) :
    AddSong env (database.recording db) song (s, []) =
      ((0, some ("ошибка добавления куплетов: " ++ err)), s2,
       [database.Call.AddSong { song with ReleaseDate := details.ReleaseDate, Link := details.Link },
        database.Call.AddVerses id (makeVerses id (splitIntoVerses details.Text))])
    ∧ AddSong env db song s = ((0, some ("ошибка добавления куплетов: " ++ err)), s2) := by
  refine ⟨?_, ?_⟩
  · rw [AddSong_recording_of_added env db song s s1 [] details id hDetails hAdd, hVerses]
    simp
  · simp [AddSong, hDetails, hAdd, hVerses]

/-- C4, run: the in-memory store refuses the verse batch; the song inserted just before
is still among its rows and only the two calls were made. -/
theorem AddSong_verses_failure_keeps_song_witness :
    (fixtures.memDB true).AddVerses 1 (makeVerses 1 (splitIntoVerses "A\n\nB\n\nC"))
        ⟨[{ fixtures.posted with ID := 1, ReleaseDate := "16.07.2006", Link := "http://api/link" }], []⟩
      = (some "pq: insert failed",
         ⟨[{ fixtures.posted with ID := 1, ReleaseDate := "16.07.2006", Link := "http://api/link" }], []⟩)
    ∧ AddSong (fixtures.apiAnswering fixtures.enriched) (fixtures.memDB true) fixtures.posted ⟨[], []⟩
      = ((0, some ("ошибка добавления куплетов: " ++ "pq: insert failed")),
         ⟨[{ ID := 1, Group := "Muse", Song := "Hysteria", ReleaseDate := "16.07.2006",
             Link := "http://api/link", Verses := [] }], []⟩) :=
  ⟨rfl,
   (AddSong_verses_failure_keeps_song (fixtures.apiAnswering fixtures.enriched) (fixtures.memDB true)
      fixtures.posted ⟨[], []⟩ _ _ fixtures.enriched 1 "pq: insert failed" (by decide) rfl rfl).2⟩

end service

/-! ### net/http -/

namespace http

theorem Error_Status (w : ResponseWriter) (error : String) (code : Int) (hw : w.Status = none) :
    (Error w error code).Status = some code := by
  simp [Error, Write, WriteHeader, hw]

theorem Error_Body (w : ResponseWriter) (error : String) (code : Int) :
    (Error w error code).Body = w.Body ++ (error ++ "\n") := by
  unfold Error Write WriteHeader
  cases w.Status <;> simp

end http

/-! ### strconv.Atoi -/

namespace strconv

theorem isDecimalDigit_bounds {c : Char} (h : isDecimalDigit c = true) :
    48 ≤ c.toNat ∧ c.toNat ≤ 57 := by
  simp only [isDecimalDigit, Bool.and_eq_true, decide_eq_true_eq] at h
  have h1 : ('0' : Char).toNat ≤ c.toNat := h.1
  have h2 : c.toNat ≤ ('9' : Char).toNat := h.2
  exact ⟨h1, h2⟩

theorem digitsValueFrom_cons (n : Nat) (c : Char) (ds : List Char) :
    digitsValueFrom n (c :: ds) = digitsValueFrom (n * 10 + (c.toNat - '0'.toNat)) ds := rfl

theorem le_digitsValueFrom (ds : List Char) : ∀ n, n ≤ digitsValueFrom n ds := by
  induction ds with
  | nil => intro n; exact le_refl _
  | cons c ds ih =>
    intro n
    rw [digitsValueFrom_cons]
    exact le_trans (by omega) (ih _)

theorem digitsValueFrom_lt (ds : List Char) (hd : ds.all isDecimalDigit = true) :
    ∀ n, digitsValueFrom n ds < (n + 1) * 10 ^ ds.length := by
  induction ds with
  | nil => intro n; simp [digitsValueFrom]
  | cons c ds ih =>
    intro n
    rw [List.all_cons, Bool.and_eq_true] at hd
    have hb := isDecimalDigit_bounds hd.1
    have hc : c.toNat - '0'.toNat ≤ 9 := by
      have : ('0' : Char).toNat = 48 := rfl
      omega
    rw [digitsValueFrom_cons, List.length_cons, pow_succ]
    refine lt_of_lt_of_le (ih hd.2 _) ?_
    have : n * 10 + (c.toNat - '0'.toNat) + 1 ≤ (n + 1) * 10 := by omega
    calc (n * 10 + (c.toNat - '0'.toNat) + 1) * 10 ^ ds.length
        ≤ ((n + 1) * 10) * 10 ^ ds.length := Nat.mul_le_mul_right _ this
      _ = (n + 1) * (10 ^ ds.length * 10) := by ring

theorem atoiLoop_spec (ds : List Char) : ∀ n : Nat,
    atoiLoop ds (n : Int) =
      if ds.all isDecimalDigit then ((digitsValueFrom n ds : Int), none)
      else (0, some NumError.ErrSyntax) := by
  induction ds with
  | nil => intro n; simp [atoiLoop, digitsValueFrom]
  | cons c ds ih =>
    intro n
    unfold atoiLoop
    by_cases hc : isDecimalDigit c = true
    · have := ih (n * 10 + (c.toNat - '0'.toNat))
      push_cast at this
      simp only [hc, if_true, List.all_cons, Bool.true_and, digitsValueFrom_cons]
      exact this
    · simp [hc]


theorem parseUintLoop_spec (ds : List Char) : ∀ n : Nat, n < 2 ^ 64 →
    (ds.all isDecimalDigit = true ∧ digitsValueFrom n ds < 2 ^ 64
        ∧ parseUintLoop ds n = (digitsValueFrom n ds, none))
    ∨ (¬ (ds.all isDecimalDigit = true ∧ digitsValueFrom n ds < 2 ^ 64)
        ∧ (parseUintLoop ds n = (0, some NumError.ErrSyntax)
            ∨ parseUintLoop ds n = (2 ^ 64 - 1, some NumError.ErrRange))) := by
  induction ds with
  | nil => intro n hn; left; exact ⟨rfl, hn, rfl⟩
  | cons c ds ih =>
    intro n hn
    unfold parseUintLoop
    by_cases hc : isDecimalDigit c = true
    · have hb := isDecimalDigit_bounds hc
      have h0 : ('0' : Char).toNat = 48 := rfl
      have hmono := le_digitsValueFrom ds (n * 10 + (c.toNat - '0'.toNat))
      simp only [hc, if_true, List.all_cons, Bool.true_and, digitsValueFrom_cons]
      by_cases hcut : n ≥ (2 ^ 64 - 1) / 10 + 1
      · right
        simp only [hcut, if_true]
        refine ⟨?_, by simp⟩
        rintro ⟨_, hlt⟩
        norm_num at hcut
        omega
      · simp only [hcut, if_false]
        norm_num at hcut
        have hm : n * 10 % 2 ^ 64 = n * 10 := Nat.mod_eq_of_lt (by omega)
        rw [hm]
        by_cases hov : n * 10 + (c.toNat - '0'.toNat) < 2 ^ 64
        · have hm2 : (n * 10 + (c.toNat - '0'.toNat)) % 2 ^ 64 = n * 10 + (c.toNat - '0'.toNat) :=
            Nat.mod_eq_of_lt hov
          rw [hm2]
          have hno : ¬ (n * 10 + (c.toNat - '0'.toNat) < n * 10
              ∨ n * 10 + (c.toNat - '0'.toNat) > 2 ^ 64 - 1) := by omega
          simp only [hno, if_false]
          exact ih _ hov
        · right
          have hwrap : (n * 10 + (c.toNat - '0'.toNat)) % 2 ^ 64 < n * 10 := by omega
          simp only [hwrap, true_or, if_true]
          refine ⟨?_, by simp⟩
          rintro ⟨_, hlt⟩
          omega
    · right
      simp [hc]


theorem ParseUint_spec (ds : List Char) :
    (ds ≠ [] ∧ ds.all isDecimalDigit = true ∧ digitsValueFrom 0 ds < 2 ^ 64
        ∧ ParseUint ds = (digitsValueFrom 0 ds, none))
    ∨ (¬ (ds ≠ [] ∧ ds.all isDecimalDigit = true ∧ digitsValueFrom 0 ds < 2 ^ 64)
        ∧ (ParseUint ds = (0, some NumError.ErrSyntax)
            ∨ ParseUint ds = (2 ^ 64 - 1, some NumError.ErrRange))) := by
  unfold ParseUint
  by_cases h : ds = []
  · right; simp [h]
  · simp only [h, if_false]
    rcases parseUintLoop_spec ds 0 (by norm_num) with ⟨h1, h2, h3⟩ | ⟨h1, h2⟩
    · left; exact ⟨h, h1, h2, h3⟩
    · right; exact ⟨fun hh => h1 ⟨hh.2.1, hh.2.2⟩, h2⟩

theorem ParseInt_signSplit (cs : List Char) :
    ParseInt cs =
      if cs = [] then (0, some NumError.ErrSyntax)
      else
        match ParseUint (signSplit cs).2 with
        | (_, some NumError.ErrSyntax) => (0, some NumError.ErrSyntax)
        | (un, _) =>
          if ¬ (signSplit cs).1 = true ∧ un ≥ 2 ^ 63 then ((2 ^ 63 : Int) - 1, some NumError.ErrRange)
          else if (signSplit cs).1 = true ∧ un > 2 ^ 63 then (-(2 ^ 63 : Int), some NumError.ErrRange)
          else if (signSplit cs).1 = true then (-(un : Int), none)
          else ((un : Int), none) := by
  cases cs with
  | nil => simp [ParseInt]
  | cons c cs =>
    by_cases hm : c = '-'
    · subst hm
      simp [ParseInt, signSplit, IntSize]
    · by_cases hp : c = '+'
      · subst hp
        simp [ParseInt, signSplit, IntSize]
      · simp [ParseInt, signSplit, IntSize, hm, hp]

theorem ParseInt_spec (cs : List Char) :
    ((ParseInt cs).2 = none ↔
      (signSplit cs).2 ≠ [] ∧ (signSplit cs).2.all isDecimalDigit = true
        ∧ (if (signSplit cs).1 then digitsValueFrom 0 (signSplit cs).2 ≤ 2 ^ 63
           else digitsValueFrom 0 (signSplit cs).2 < 2 ^ 63))
    ∧ ((ParseInt cs).2 = none →
        (ParseInt cs).1 = if (signSplit cs).1 then -(digitsValueFrom 0 (signSplit cs).2 : Int)
          else (digitsValueFrom 0 (signSplit cs).2 : Int)) := by
  rw [ParseInt_signSplit]
  by_cases hnil : cs = []
  · subst hnil
    simp [signSplit]
  · simp only [hnil, if_false]
    rcases ParseUint_spec (signSplit cs).2 with ⟨h0, h1, h2, h3⟩ | ⟨h1, h2 | h2⟩
    · rw [h3]
      cases hneg : (signSplit cs).1
      · simp only [h0, h1, ne_eq, not_false_eq_true, true_and, Bool.false_eq_true, false_and,
          if_false, not_true_eq_false]
        split_ifs with hr
        · simp only [reduceCtorEq, false_iff, false_implies, and_true]
          omega
        · simp only [true_iff, true_implies, and_true]
          omega
      · simp only [h0, h1, ne_eq, not_false_eq_true, true_and, if_true, not_true_eq_false,
          false_and, if_false]
        split_ifs with hr
        · simp only [reduceCtorEq, false_iff, false_implies, and_true]
          omega
        · simp only [true_iff, true_implies, and_true]
          omega
    · rw [h2]
      simp only [false_iff, false_implies, and_true, reduceCtorEq]
      intro hh
      apply h1
      refine ⟨hh.1, hh.2.1, ?_⟩
      have := hh.2.2
      split at this <;> omega
    · rw [h2]
      have hfalse : ¬ ((signSplit cs).2 ≠ [] ∧ (signSplit cs).2.all isDecimalDigit = true
          ∧ (if (signSplit cs).1 then digitsValueFrom 0 (signSplit cs).2 ≤ 2 ^ 63
             else digitsValueFrom 0 (signSplit cs).2 < 2 ^ 63)) := by
        intro hh
        apply h1
        refine ⟨hh.1, hh.2.1, ?_⟩
        have := hh.2.2
        split at this <;> omega
      cases hneg : (signSplit cs).1 <;> simp [hneg] at hfalse ⊢ <;> exact hfalse


theorem length_le_utf8ByteSize_go (cs : List Char) : cs.length ≤ String.utf8ByteSize.go cs := by
  induction cs with
  | nil => simp [String.utf8ByteSize.go]
  | cons c cs ih =>
    have := Char.utf8Size_pos c
    simp only [String.utf8ByteSize.go, List.length_cons]
    omega

theorem length_le_utf8ByteSize (s : String) : s.data.length ≤ s.utf8ByteSize := by
  cases s with
  | mk cs => exact length_le_utf8ByteSize_go cs

theorem utf8ByteSize_nil (s : String) (h : s.data = []) : s.utf8ByteSize = 0 := by
  cases s with
  | mk cs =>
    simp only at h
    subst h
    rfl

theorem Atoi_fast (s : String) (h : 0 < s.utf8ByteSize ∧ s.utf8ByteSize < 19) :
    Atoi s =
      if (signSplit s.data).2 = [] then (0, some NumError.ErrSyntax)
      else if (signSplit s.data).2.all isDecimalDigit then
        ((if (signSplit s.data).1 then -(digitsValueFrom 0 (signSplit s.data).2 : Int)
          else (digitsValueFrom 0 (signSplit s.data).2 : Int)), none)
      else (0, some NumError.ErrSyntax) := by
  have hloop : ∀ ds, atoiLoop ds 0 =
      if ds.all isDecimalDigit then ((digitsValueFrom 0 ds : Int), none)
      else (0, some NumError.ErrSyntax) := by
    intro ds
    have := atoiLoop_spec ds 0
    simpa using this
  unfold Atoi
  simp only [h, and_self, if_true]
  cases hcs : s.data with
  | nil =>
    have := utf8ByteSize_nil s hcs
    omega
  | cons c cs =>
    by_cases hm : c = '-'
    · subst hm
      cases cs with
      | nil => simp [signSplit]
      | cons d ds =>
        simp only [signSplit, List.head?_cons, List.tail_cons, true_or, if_true, List.length_cons,
          hloop]
        by_cases hd : (d :: ds).all isDecimalDigit = true
        · simp [hd]
        · simp [hd]
    · by_cases hp : c = '+'
      · subst hp
        cases cs with
        | nil => simp [signSplit]
        | cons d ds =>
          simp only [signSplit, List.head?_cons, List.tail_cons, if_true, List.length_cons, hloop]
          by_cases hd : (d :: ds).all isDecimalDigit = true
          · simp [hd]
          · simp [hd]
      · simp only [signSplit, hm, hp, List.head?_cons, if_false, hloop]
        by_cases hd : (c :: cs).all isDecimalDigit = true
        · simp [hd, hm, hp]
        · simp [hd, hm, hp]

theorem signSplit_length_le (cs : List Char) : (signSplit cs).2.length ≤ cs.length := by
  cases cs with
  | nil => simp [signSplit]
  | cons c cs =>
    simp only [signSplit]
    split_ifs <;> simp

/-- `Atoi` succeeds exactly on the decimal integers that fit 64 signed bits, and then
returns their value. -/
theorem Atoi_spec (s : String) :
    ((Atoi s).2 = none ↔
      isDecimalInteger s = true ∧ -(2 ^ 63 : Int) ≤ decimalValue s ∧ decimalValue s < 2 ^ 63)
    ∧ ((Atoi s).2 = none → (Atoi s).1 = decimalValue s) := by
  by_cases h : 0 < s.utf8ByteSize ∧ s.utf8ByteSize < 19
  · rw [Atoi_fast s h]
    unfold isDecimalInteger decimalValue
    by_cases hnil : (signSplit s.data).2 = []
    · simp [hnil]
    · by_cases hd : (signSplit s.data).2.all isDecimalDigit = true
      · have hlt := digitsValueFrom_lt _ hd 0
        have hlen : (signSplit s.data).2.length ≤ 18 := by
          have h1 := signSplit_length_le s.data
          have h2 := length_le_utf8ByteSize s
          omega
        have hpow : 10 ^ (signSplit s.data).2.length ≤ 10 ^ 18 :=
          Nat.pow_le_pow_right (by norm_num) hlen
        have hv : digitsValueFrom 0 (signSplit s.data).2 < 10 ^ 18 := by
          simp only [zero_add, one_mul] at hlt
          omega
        have hemp : (signSplit s.data).2.isEmpty = false := by
          cases hh : (signSplit s.data).2 with
          | nil => exact absurd hh hnil
          | cons a t => rfl
        simp only [hnil, if_false, hd, if_true, hemp, Bool.not_false, Bool.and_self, true_and,
          true_implies, true_iff]
        norm_num at hv
        split_ifs <;> norm_num <;> omega
      · simp [hnil, hd]
  · have hslow : Atoi s = ParseInt s.data := by
      unfold Atoi
      simp only [h, if_false]
    rw [hslow]
    obtain ⟨h1, h2⟩ := ParseInt_spec s.data
    unfold isDecimalInteger decimalValue
    refine ⟨?_, h2⟩
    rw [h1]
    have hemp : ((signSplit s.data).2 ≠ []) ↔ (signSplit s.data).2.isEmpty = false := by
      cases (signSplit s.data).2 <;> simp
    rw [hemp]
    cases hneg : (signSplit s.data).1
    · simp only [Bool.and_eq_true, Bool.not_eq_true', if_false, Bool.false_eq_true]
      constructor
      · rintro ⟨a, b, c⟩
        exact ⟨⟨a, b⟩, by omega, by omega⟩
      · rintro ⟨⟨a, b⟩, _, c⟩
        exact ⟨a, b, by omega⟩
    · simp only [Bool.and_eq_true, Bool.not_eq_true', if_true]
      constructor
      · rintro ⟨a, b, c⟩
        exact ⟨⟨a, b⟩, by omega, by omega⟩
      · rintro ⟨⟨a, b⟩, c, _⟩
        exact ⟨a, b, by omega⟩

end strconv

/-! ### handlers.CreateSong -/

namespace handlers

/-- What `CreateSong` answers in each of its three outcomes, on a writer nothing was
written to and a request without a `render.Status` value: 400 on a decode error, 500 on
a service error, and status 200 with the identifier on success. -/
theorem CreateSong_responses {σ : Type} (codec : Codec) (musicService : service.MusicService σ)
    (w : http.ResponseWriter) (r : http.Request) (s : σ)
    (hw : w.Status = none) (hr : r.Context.renderStatus = none) :
    ((codec.DecodeSong r.Body).2 ≠ none →
        (CreateSong codec musicService w r s).1.Status = some 400
        ∧ (CreateSong codec musicService w r s).2 = s)
    ∧ ((codec.DecodeSong r.Body).2 = none →
        (musicService.AddSong (codec.DecodeSong r.Body).1 s).1.2 ≠ none →
        (CreateSong codec musicService w r s).1.Status = some 500)
    ∧ ((codec.DecodeSong r.Body).2 = none →
        (musicService.AddSong (codec.DecodeSong r.Body).1 s).1.2 = none →
        (CreateSong codec musicService w r s).1.Status = some 200
        ∧ (CreateSong codec musicService w r s).1.Body = w.Body ++
            ("\x7b\"id\":" ++ toString (musicService.AddSong (codec.DecodeSong r.Body).1 s).1.1 ++ "\x7d\n")) := by
  rcases hd : codec.DecodeSong r.Body with ⟨song, e⟩
  cases e with
  | some err => simp [CreateSong, hd, http.Error_Status, hw]
  | none =>
    rcases ha : musicService.AddSong song s with ⟨⟨id, e2⟩, s1⟩
    cases e2 with
    | some err => simp [CreateSong, hd, ha, http.Error_Status, hw]
    | none => simp [CreateSong, hd, ha, render.JSON, hr, http.Write, http.WriteHeader, hw]

/-- C5, the code at the failing input: `POST /songs` with a body that decodes as a song,
served by the service over the in-memory store, which creates the song with identifier
1. The response carries the body with "id" 1 and the status 200, not 201. -/
theorem CreateSong_created_status_is_200 :
    (fixtures.codecReading fixtures.posted).DecodeSong fixtures.postSongs.Body = (fixtures.posted, none)
    ∧ (service.AddSong (fixtures.apiAnswering fixtures.enriched) (fixtures.memDB false)
        fixtures.posted ⟨[], []⟩).1 = (1, none)
    ∧ (CreateSong (fixtures.codecReading fixtures.posted)
        (service.NewMusicService (fixtures.apiAnswering fixtures.enriched) (fixtures.memDB false))
        fixtures.freshWriter fixtures.postSongs ⟨[], []⟩).1.Status = some 200
    ∧ (CreateSong (fixtures.codecReading fixtures.posted)
        (service.NewMusicService (fixtures.apiAnswering fixtures.enriched) (fixtures.memDB false))
        fixtures.freshWriter fixtures.postSongs ⟨[], []⟩).1.Body = "\x7b\"id\":1\x7d\n" := by
  decide

/-! ### handlers on /songs/{id} -/

/-- C7. When the `id` path parameter does not parse as an integer, `GetSong`,
`UpdateSong` and `DeleteSong` answer with `http.Error(w, "неверный ID", 400)`, whose
status is 400 on a writer nothing was written to, and leave the observed service as it
was: no call is logged and the state behind the service, the storage layer included,
is untouched. -/
theorem invalid_id_is_rejected {σ : Type} (codec : Codec) (musicService : service.MusicService σ)
    (w : http.ResponseWriter) (r : http.Request) (s : σ) (log : List service.Call)
    (hid : (strconv.Atoi (chi.URLParam r "id")).2 ≠ none) :
    GetSong codec (service.recording musicService) w r (s, log)
        = (http.Error w "неверный ID" 400, (s, log))
    ∧ UpdateSong codec (service.recording musicService) w r (s, log)
        = (http.Error w "неверный ID" 400, (s, log))
    ∧ DeleteSong (service.recording musicService) w r (s, log)
        = (http.Error w "неверный ID" 400, (s, log))
    ∧ (w.Status = none → (http.Error w "неверный ID" 400).Status = some 400) := by
  rcases h : strconv.Atoi (chi.URLParam r "id") with ⟨id, e⟩
  rw [h] at hid
  cases e with
  | none => exact absurd rfl hid
  | some err =>
    refine ⟨?_, ?_, ?_, fun hw => http.Error_Status w _ _ hw⟩
    · simp [GetSong, h]
    · simp [UpdateSong, h]
    · simp [DeleteSong, h]

/-- C7, run: `/songs/abc` on the service of `main` over the observed in-memory store
holding one song: status 400, both call logs stay empty and the song stays. -/
theorem invalid_id_is_rejected_witness :
    (strconv.Atoi (chi.URLParam (fixtures.songRequest "abc") "id")).2 ≠ none
    ∧ DeleteSong
        (service.recording (service.NewMusicService fixtures.apiDown
          (database.recording (fixtures.memDB false))))
        fixtures.freshWriter (fixtures.songRequest "abc") ((⟨[fixtures.posted], []⟩, []), [])
      = (http.Error fixtures.freshWriter "неверный ID" 400, ((⟨[fixtures.posted], []⟩, []), []))
    ∧ (http.Error fixtures.freshWriter "неверный ID" 400).Status = some 400 :=
  have h := invalid_id_is_rejected (fixtures.codecReading fixtures.posted)
    (service.NewMusicService fixtures.apiDown (database.recording (fixtures.memDB false)))
    fixtures.freshWriter (fixtures.songRequest "abc") (⟨[fixtures.posted], []⟩, []) [] (by decide)
  ⟨by decide, h.2.2.1, h.2.2.2 rfl⟩

end handlers

/-! ### database: the statements of the repository -/

namespace database

/-- The insert of `AddSong` for any song: five placeholders over the columns "group",
song, release_date, text, link, and four arguments; `Link` lands on the placeholder of
`text` and the placeholder of `link` has no argument. -/
theorem AddSongStatement_reading (song : models.Song) :
    AddSongInsert.text = (AddSongStatement song).query
    ∧ placeholders (AddSongStatement song).query.data = [1, 2, 3, 4, 5]
    ∧ placeholderCount (AddSongStatement song).query = 5
    ∧ (AddSongStatement song).args.length = 4
    ∧ AddSongInsert.binding (AddSongStatement song).args "\"group\"" = some (SQLArg.str song.Group)
    ∧ AddSongInsert.binding (AddSongStatement song).args "song" = some (SQLArg.str song.Song)
    ∧ AddSongInsert.binding (AddSongStatement song).args "release_date" = some (SQLArg.str song.ReleaseDate)
    ∧ AddSongInsert.binding (AddSongStatement song).args "text" = some (SQLArg.str song.Link)
    ∧ AddSongInsert.binding (AddSongStatement song).args "link" = none := by
  have hq : (AddSongStatement song).query = (AddSongStatement fixtures.posted).query := rfl
  rw [hq]
  refine ⟨by decide, by decide, by decide, rfl, rfl, rfl, rfl, rfl, rfl⟩

/-- C8, the code at the failing input: for the song "Hysteria" of "Muse" the insert has
the five placeholders $1..$5 but four bound arguments; the column `text` receives the
link and the column `link` receives nothing. -/
theorem AddSong_insert_arguments_mismatch :
    AddSongInsert.text = (AddSongStatement fixtures.posted).query
    ∧ placeholderCount (AddSongStatement fixtures.posted).query = 5
    ∧ (AddSongStatement fixtures.posted).args =
        [SQLArg.str "Muse", SQLArg.str "Hysteria", SQLArg.str "01.01.1999", SQLArg.str "http://caller"]
    ∧ AddSongInsert.binding (AddSongStatement fixtures.posted).args "text"
        = some (SQLArg.str "http://caller")
    ∧ AddSongInsert.binding (AddSongStatement fixtures.posted).args "link" = none := by
  decide

/-- The update of `UpdateSong` for any song: six placeholders and five arguments;
`Link` lands on the placeholder of `text`, `ID` on the placeholder of `link`, and the
placeholder of the row condition `id = $6` has no argument. -/
theorem UpdateSongStatement_reading (song : models.Song) :
    UpdateSongUpdate.text = (UpdateSongStatement song).query
    ∧ placeholders (UpdateSongStatement song).query.data = [1, 2, 3, 4, 5, 6]
    ∧ placeholderCount (UpdateSongStatement song).query = 6
    ∧ (UpdateSongStatement song).args.length = 5
    ∧ UpdateSongUpdate.binding (UpdateSongStatement song).args "\"group\"" = some (SQLArg.str song.Group)
    ∧ UpdateSongUpdate.binding (UpdateSongStatement song).args "song" = some (SQLArg.str song.Song)
    ∧ UpdateSongUpdate.binding (UpdateSongStatement song).args "release_date"
        = some (SQLArg.str song.ReleaseDate)
    ∧ UpdateSongUpdate.binding (UpdateSongStatement song).args "text" = some (SQLArg.str song.Link)
    ∧ UpdateSongUpdate.binding (UpdateSongStatement song).args "link" = some (SQLArg.int song.ID)
    ∧ boundTo (UpdateSongStatement song).args UpdateSongUpdate.key = none := by
  have hq : (UpdateSongStatement song).query = (UpdateSongStatement fixtures.posted).query := rfl
  rw [hq]
  refine ⟨by decide, by decide, by decide, rfl, rfl, rfl, rfl, rfl, rfl, rfl⟩

/-- C9, the code at the failing input: for the song with identifier 7 the update has the
six placeholders $1..$6 but five bound arguments; the column `text` receives the link,
the column `link` receives the identifier 7, and the row condition `id = $6` receives
nothing. -/
theorem UpdateSong_update_arguments_mismatch :
    UpdateSongUpdate.text = (UpdateSongStatement { fixtures.posted with ID := 7 }).query
    ∧ placeholderCount (UpdateSongStatement { fixtures.posted with ID := 7 }).query = 6
    ∧ (UpdateSongStatement { fixtures.posted with ID := 7 }).args =
        [SQLArg.str "Muse", SQLArg.str "Hysteria", SQLArg.str "01.01.1999",
         SQLArg.str "http://caller", SQLArg.int 7]
    ∧ UpdateSongUpdate.binding (UpdateSongStatement { fixtures.posted with ID := 7 }).args "text"
        = some (SQLArg.str "http://caller")
    ∧ UpdateSongUpdate.binding (UpdateSongStatement { fixtures.posted with ID := 7 }).args "link"
        = some (SQLArg.int 7)
    ∧ boundTo (UpdateSongStatement { fixtures.posted with ID := 7 }).args UpdateSongUpdate.key = none := by
  decide

theorem getElem?_append_length_add {α : Type} (l₁ l₂ : List α) (k : Nat) :
    (l₁ ++ l₂)[l₁.length + k]? = l₂[k]? := by
  rw [List.getElem?_append_right (by omega)]
  congr 1
  omega

set_option maxRecDepth 100000 in
theorem GetSongsStatement_eq_spec (limit offset : Int) (filter : models.Song) :
    GetSongsStatement limit offset filter = GetSongsStatementSpec limit offset filter := by
  by_cases hG : filter.Group = "" <;> by_cases hS : filter.Song = "" <;>
    by_cases hR : filter.ReleaseDate = "" <;> by_cases hL : filter.Link = "" <;>
    simp only [GetSongsStatement, GetSongsStatementSpec, filterPredicates, hG, hS, hR, hL, ne_eq,
      not_true_eq_false, not_false_eq_true, if_true, if_false, reduceIte, List.nil_append, List.enum,
      List.enumFrom_cons, List.enumFrom_nil, List.map_cons, List.map_nil, List.length_cons,
      List.length_nil, String.join, List.foldl_cons, List.foldl_nil, List.cons_append,
      List.append_nil] <;>
    exact congrArg₂ Statement.mk (by decide) rfl

set_option maxRecDepth 100000 in
theorem GetSongsStatement_placeholders (limit offset : Int) (filter : models.Song) :
    placeholders (GetSongsStatement limit offset filter).query.data
      = List.range' 1 ((filterPredicates filter).length + 2) := by
  by_cases hG : filter.Group = "" <;> by_cases hS : filter.Song = "" <;>
    by_cases hR : filter.ReleaseDate = "" <;> by_cases hL : filter.Link = "" <;>
    simp only [GetSongsStatement, filterPredicates, hG, hS, hR, hL, ne_eq,
      not_true_eq_false, not_false_eq_true, if_true, if_false, reduceIte, List.nil_append,
      List.length_cons, List.length_nil, List.cons_append, List.append_nil] <;>
    decide

/-- C10. The statement built by `GetSongs` is the one the specification words: after
the select over `songs`, one `AND` predicate for every non-empty filter field and none
for an empty one (`ILIKE` against "%"+value+"%" for group and song, `=` against the
value for release date and link), the i-th predicate on placeholder `$i` and its value
the i-th argument, then `LIMIT` and `OFFSET` on the next two placeholders with `limit`
and `offset` as the last two arguments. The placeholders in the text are 1, 2, ...,
one per argument. -/
theorem GetSongsStatement_spec (limit offset : Int) (filter : models.Song) :
    GetSongsStatement limit offset filter = GetSongsStatementSpec limit offset filter
    ∧ placeholders (GetSongsStatement limit offset filter).query.data
        = List.range' 1 (GetSongsStatement limit offset filter).args.length
    ∧ (GetSongsStatement limit offset filter).args.length = (filterPredicates filter).length + 2
    ∧ (∀ (i : Nat) (h : i < (filterPredicates filter).length),
        boundTo (GetSongsStatement limit offset filter).args (i + 1)
          = some ((filterPredicates filter)[i]).2)
    ∧ boundTo (GetSongsStatement limit offset filter).args ((filterPredicates filter).length + 1)
        = some (SQLArg.int limit)
    ∧ boundTo (GetSongsStatement limit offset filter).args ((filterPredicates filter).length + 2)
        = some (SQLArg.int offset) := by
  have hargs : (GetSongsStatement limit offset filter).args
      = (filterPredicates filter).map (fun p => p.2) ++ [SQLArg.int limit, SQLArg.int offset] := by
    rw [GetSongsStatement_eq_spec]; rfl
  have hlen : (GetSongsStatement limit offset filter).args.length
      = (filterPredicates filter).length + 2 := by
    rw [hargs]; simp
  refine ⟨GetSongsStatement_eq_spec limit offset filter, ?_, hlen, ?_, ?_, ?_⟩
  · rw [hlen]; exact GetSongsStatement_placeholders limit offset filter
  · intro i h
    simp [boundTo, hargs, List.getElem?_append_left, h]
  · have h1 : (filterPredicates filter).length + 1 - 1
        = ((filterPredicates filter).map (fun p => p.2)).length + 0 := by simp
    rw [boundTo, if_neg (by omega), hargs, h1, getElem?_append_length_add]
    rfl
  · have h2 : (filterPredicates filter).length + 2 - 1
        = ((filterPredicates filter).map (fun p => p.2)).length + 1 := by simp
    rw [boundTo, if_neg (by omega), hargs, h2, getElem?_append_length_add]
    rfl

end database

/-! ### handlers.parseLimitOffset and handlers.Paginate -/

namespace handlers

/-- The three ways out of `parseLimitOffset`, in the order the function tests them. -/
theorem parseLimitOffset_eq (r : http.Request) :
    parseLimitOffset r =
      if http.QueryGet r.Query "limit" ≠ "" ∧
          ((strconv.Atoi (http.QueryGet r.Query "limit")).2 ≠ none
            ∨ (strconv.Atoi (http.QueryGet r.Query "limit")).1 ≤ 0) then
        (0, 0, some "неверный параметр limit")
      else if http.QueryGet r.Query "offset" ≠ "" ∧
          ((strconv.Atoi (http.QueryGet r.Query "offset")).2 ≠ none
            ∨ (strconv.Atoi (http.QueryGet r.Query "offset")).1 < 0) then
        (0, 0, some "неверный параметр offset")
      else
        (if http.QueryGet r.Query "limit" ≠ "" then (strconv.Atoi (http.QueryGet r.Query "limit")).1 else 10,
         if http.QueryGet r.Query "offset" ≠ "" then (strconv.Atoi (http.QueryGet r.Query "offset")).1 else 0,
         none) := by
  unfold parseLimitOffset
  generalize http.QueryGet r.Query "limit" = l
  generalize http.QueryGet r.Query "offset" = o
  rcases hl : strconv.Atoi l with ⟨lv, le⟩
  rcases ho : strconv.Atoi o with ⟨ov, oe⟩
  by_cases h1 : l = "" <;> by_cases h2 : o = "" <;>
    by_cases h3 : le = none <;> by_cases h4 : oe = none <;>
    by_cases h5 : lv ≤ 0 <;> by_cases h6 : ov < 0 <;>
    simp [hl, ho, h1, h2, h3, h4, h5, h6]

theorem Atoi_value_of_in_range (l : String) (lo : Int) (hlo : -(2 ^ 63 : Int) ≤ lo)
    (h : strconv.isDecimalInteger l = true ∧ lo ≤ strconv.decimalValue l
      ∧ strconv.decimalValue l < 2 ^ 63) :
    (strconv.Atoi l).2 = none ∧ (strconv.Atoi l).1 = strconv.decimalValue l := by
  obtain ⟨h1, h2⟩ := strconv.Atoi_spec l
  have hn : (strconv.Atoi l).2 = none := h1.mpr ⟨h.1, by omega, h.2.2⟩
  exact ⟨hn, h2 hn⟩

theorem limit_rejected_iff (l : String) :
    ((strconv.Atoi l).2 ≠ none ∨ (strconv.Atoi l).1 ≤ 0) ↔
      ¬ (strconv.isDecimalInteger l = true ∧ 0 < strconv.decimalValue l
          ∧ strconv.decimalValue l < 2 ^ 63) := by
  obtain ⟨h1, h2⟩ := strconv.Atoi_spec l
  constructor
  · rintro h ⟨hd, hpos, hlt⟩
    obtain ⟨hn, hv⟩ := Atoi_value_of_in_range l 1 (by norm_num) ⟨hd, by omega, hlt⟩
    rcases h with h | h
    · exact h hn
    · omega
  · intro h
    by_cases hn : (strconv.Atoi l).2 = none
    · right
      obtain ⟨hd, _, hhi⟩ := h1.mp hn
      have hv := h2 hn
      by_contra hc
      exact h ⟨hd, by omega, hhi⟩
    · exact Or.inl hn

theorem offset_rejected_iff (o : String) :
    ((strconv.Atoi o).2 ≠ none ∨ (strconv.Atoi o).1 < 0) ↔
      ¬ (strconv.isDecimalInteger o = true ∧ 0 ≤ strconv.decimalValue o
          ∧ strconv.decimalValue o < 2 ^ 63) := by
  obtain ⟨h1, h2⟩ := strconv.Atoi_spec o
  constructor
  · rintro h ⟨hd, hpos, hlt⟩
    obtain ⟨hn, hv⟩ := Atoi_value_of_in_range o 0 (by norm_num) ⟨hd, hpos, hlt⟩
    rcases h with h | h
    · exact h hn
    · omega
  · intro h
    by_cases hn : (strconv.Atoi o).2 = none
    · right
      obtain ⟨hd, _, hhi⟩ := h1.mp hn
      have hv := h2 hn
      by_contra hc
      exact h ⟨hd, by omega, hhi⟩
    · exact Or.inl hn

theorem Paginate_of_error {σ : Type} (next : HandlerFunc σ) (w : http.ResponseWriter)
    (r : http.Request) (s : σ) (h : (parseLimitOffset r).2.2 ≠ none) :
    Paginate next w r s = (http.Error w "Неверные параметры пагинации" 400, s) := by
  unfold Paginate
  rcases hp : parseLimitOffset r with ⟨limit, offset, e⟩
  rw [hp] at h
  cases e with
  | none => exact absurd rfl h
  | some err => rfl

/-- C6, as amended. `parseLimitOffset` fails exactly when a non-empty `limit` is not a
decimal integer (optional sign, decimal digits) with 0 < value < 2^63, or a non-empty
`offset` is not a decimal integer with 0 ≤ value < 2^63. When it succeeds, the limit is
10 for an absent or empty parameter and the value of the parameter otherwise, and the
offset is 0 for an absent or empty parameter and the value of the parameter otherwise.
When it fails, `Paginate` answers with `http.Error(w, ..., 400)`, status 400 on a
writer nothing was written to, whatever the wrapped handler is, and leaves the state
behind the handlers as it was: the wrapped handler is not run. -/
theorem parseLimitOffset_spec (r : http.Request) :
    ((parseLimitOffset r).2.2 ≠ none ↔
        (http.QueryGet r.Query "limit" ≠ "" ∧
          ¬ (strconv.isDecimalInteger (http.QueryGet r.Query "limit") = true
              ∧ 0 < strconv.decimalValue (http.QueryGet r.Query "limit")
              ∧ strconv.decimalValue (http.QueryGet r.Query "limit") < 2 ^ 63))
        ∨ (http.QueryGet r.Query "offset" ≠ "" ∧
          ¬ (strconv.isDecimalInteger (http.QueryGet r.Query "offset") = true
              ∧ 0 ≤ strconv.decimalValue (http.QueryGet r.Query "offset")
              ∧ strconv.decimalValue (http.QueryGet r.Query "offset") < 2 ^ 63)))
    ∧ ((parseLimitOffset r).2.2 = none →
        (parseLimitOffset r).1 =
            (if http.QueryGet r.Query "limit" = "" then 10
             else strconv.decimalValue (http.QueryGet r.Query "limit"))
        ∧ (parseLimitOffset r).2.1 =
            (if http.QueryGet r.Query "offset" = "" then 0
             else strconv.decimalValue (http.QueryGet r.Query "offset")))
    ∧ ((parseLimitOffset r).2.2 ≠ none →
        ∀ (σ : Type) (next : HandlerFunc σ) (w : http.ResponseWriter) (s : σ),
          Paginate next w r s = (http.Error w "Неверные параметры пагинации" 400, s)
          ∧ (w.Status = none → (Paginate next w r s).1.Status = some 400)) := by
  refine ⟨?_, ?_, ?_⟩
  · have key := parseLimitOffset_eq r
    generalize parseLimitOffset r = p at key ⊢
    generalize http.QueryGet r.Query "limit" = l at key ⊢
    generalize http.QueryGet r.Query "offset" = o at key ⊢
    by_cases h1 : l ≠ "" ∧ ((strconv.Atoi l).2 ≠ none ∨ (strconv.Atoi l).1 ≤ 0)
    · rw [if_pos h1] at key
      subst key
      rw [limit_rejected_iff] at h1
      simp only [ne_eq, reduceCtorEq, not_false_eq_true, true_iff]
      exact Or.inl h1
    · rw [if_neg h1] at key
      by_cases h2 : o ≠ "" ∧ ((strconv.Atoi o).2 ≠ none ∨ (strconv.Atoi o).1 < 0)
      · rw [if_pos h2] at key
        subst key
        rw [offset_rejected_iff] at h2
        simp only [ne_eq, reduceCtorEq, not_false_eq_true, true_iff]
        exact Or.inr h2
      · rw [if_neg h2] at key
        subst key
        rw [limit_rejected_iff] at h1
        rw [offset_rejected_iff] at h2
        simp only [ne_eq, not_true_eq_false, false_iff]
        rintro (h | h)
        · exact h1 h
        · exact h2 h
  · have key := parseLimitOffset_eq r
    generalize parseLimitOffset r = p at key ⊢
    generalize http.QueryGet r.Query "limit" = l at key ⊢
    generalize http.QueryGet r.Query "offset" = o at key ⊢
    by_cases h1 : l ≠ "" ∧ ((strconv.Atoi l).2 ≠ none ∨ (strconv.Atoi l).1 ≤ 0)
    · rw [if_pos h1] at key
      subst key
      intro h; cases h
    · rw [if_neg h1] at key
      by_cases h2 : o ≠ "" ∧ ((strconv.Atoi o).2 ≠ none ∨ (strconv.Atoi o).1 < 0)
      · rw [if_pos h2] at key
        subst key
        intro h; cases h
      · rw [if_neg h2] at key
        subst key
        rw [limit_rejected_iff] at h1
        rw [offset_rejected_iff] at h2
        intro _
        refine ⟨?_, ?_⟩
        · by_cases hl : l = ""
          · simp [hl]
          · have hacc := not_not.mp (fun hn => h1 ⟨hl, hn⟩)
            simp only [ne_eq, hl, not_false_eq_true, if_true, if_false]
            exact (Atoi_value_of_in_range _ 1 (by norm_num) ⟨hacc.1, by omega, hacc.2.2⟩).2
        · by_cases ho : o = ""
          · simp [ho]
          · have hacc := not_not.mp (fun hn => h2 ⟨ho, hn⟩)
            simp only [ne_eq, ho, not_false_eq_true, if_true, if_false]
            exact (Atoi_value_of_in_range _ 0 (by norm_num) hacc).2
  · intro h σ next w s
    rw [Paginate_of_error next w r s h]
    exact ⟨rfl, fun hw => http.Error_Status w _ _ hw⟩

set_option maxRecDepth 100000 in
/-- C6, the claim as stated fails: the limit "9223372036854775808" is a decimal integer
greater than 0 and no offset is given, yet `parseLimitOffset` returns an error, because
the value does not fit the 64-bit `int` that `strconv.Atoi` returns. -/
theorem parseLimitOffset_rejects_large_limit :
    strconv.isDecimalInteger "9223372036854775808" = true
    ∧ 0 < strconv.decimalValue "9223372036854775808"
    ∧ http.QueryGet (fixtures.listRequest [("limit", "9223372036854775808")]).Query "limit"
        = "9223372036854775808"
    ∧ http.QueryGet (fixtures.listRequest [("limit", "9223372036854775808")]).Query "offset" = ""
    ∧ parseLimitOffset (fixtures.listRequest [("limit", "9223372036854775808")])
        = (0, 0, some "неверный параметр limit") := by
  decide

set_option maxRecDepth 100000 in
/-- C6, run: `limit=25&offset=50` is accepted with these values; `limit=0` is refused
and `Paginate` answers 400 on the in-memory store without running the handler it wraps. -/
theorem parseLimitOffset_spec_witness :
    (parseLimitOffset (fixtures.listRequest [("limit", "25"), ("offset", "50")])).2.2 = none
    ∧ (parseLimitOffset (fixtures.listRequest [("limit", "25"), ("offset", "50")])).1 = 25
    ∧ (parseLimitOffset (fixtures.listRequest [("limit", "25"), ("offset", "50")])).2.1 = 50
    ∧ (parseLimitOffset (fixtures.listRequest [("limit", "0")])).2.2 ≠ none
    ∧ Paginate fixtures.emptyList fixtures.freshWriter (fixtures.listRequest [("limit", "0")]) ⟨[], []⟩
        = (http.Error fixtures.freshWriter "Неверные параметры пагинации" 400, ⟨[], []⟩)
    ∧ (Paginate fixtures.emptyList fixtures.freshWriter (fixtures.listRequest [("limit", "0")])
        ⟨[], []⟩).1.Status = some 400 := by
  have h1 := (parseLimitOffset_spec (fixtures.listRequest [("limit", "25"), ("offset", "50")])).2.1
    (by decide)
  have h2 := (parseLimitOffset_spec (fixtures.listRequest [("limit", "0")])).2.2 (by decide)
    fixtures.Store fixtures.emptyList fixtures.freshWriter ⟨[], []⟩
  refine ⟨by decide, ?_, ?_, by decide, h2.1, h2.2 rfl⟩
  · rw [h1.1]; decide
  · rw [h1.2]; decide

end handlers

/-! ### strings.Split: empty segments -/

namespace strings

theorem Index_some_leftmost {sep : List Char} :
    ∀ (s : List Char) (m : Nat), Index s sep = some m → ∀ j, j < m → ¬ sep <+: s.drop j := by
  intro s
  induction s with
  | nil =>
    intro m h j hj
    unfold Index at h
    split at h
    · cases h; omega
    · cases h
  | cons c cs ih =>
    intro m h j hj
    unfold Index at h
    split at h
    · cases h; omega
    · rename_i hp
      cases hI : Index cs sep with
      | none => simp [hI] at h
      | some m' =>
        simp [hI] at h
        subst h
        cases j with
        | zero =>
          intro hpre
          exact hp (List.isPrefixOf_iff_prefix.mpr (by simpa using hpre))
        | succ j =>
          rw [List.drop_succ_cons]
          exact ih m' hI j (by omega)

theorem Index_ne_none_of_infix {sep : List Char} (hsep : sep ≠ []) {s : List Char}
    (h : sep <:+: s) : ∃ m, Index s sep = some m := by
  cases hI : Index s sep with
  | none => exact absurd h (not_infix_of_Index_none hsep s hI)
  | some m => exact ⟨m, rfl⟩

theorem Index_le_of_prefix_drop {sep : List Char} {s : List Char} {m j : Nat}
    (h : Index s sep = some m) (hj : sep <+: s.drop j) : m ≤ j := by
  by_contra hlt
  exact Index_some_leftmost s m h j (by omega) hj

theorem Index_zero_of_leading_sep {sep : List Char} (hsep : sep ≠ []) {s : List Char}
    (h : sep <+: s) : Index s sep = some 0 := by
  obtain ⟨m, hm⟩ := Index_ne_none_of_infix hsep h.isInfix
  have := Index_le_of_prefix_drop (j := 0) hm (by simpa using h)
  have : m = 0 := by omega
  subst this
  exact hm

theorem countLoop_le {sep : List Char} (hsep : sep ≠ []) :
    ∀ (fuel : Nat) (s : List Char), countLoop fuel s sep 0 ≤ s.length := by
  intro fuel
  induction fuel with
  | zero => intro s; simp [countLoop]
  | succ fuel ih =>
    intro s
    unfold countLoop
    cases hI : Index s sep with
    | none => simp
    | some i =>
      have hlen := length_drop_of_Index_some hsep hI
      have := ih (s.drop (i + sep.length))
      simp only
      rw [countLoop_acc]
      omega

theorem countLoop_fuel {sep : List Char} (hsep : sep ≠ []) :
    ∀ (f1 f2 : Nat) (s : List Char) (n : Nat), s.length ≤ f1 → s.length ≤ f2 →
      countLoop f1 s sep n = countLoop f2 s sep n := by
  intro f1
  induction f1 with
  | zero =>
    intro f2 s n h1 _
    have : s = [] := List.length_eq_zero.mp (Nat.le_zero.mp h1)
    subst this
    cases f2 with
    | zero => rfl
    | succ f2 => simp [countLoop, Index_nil_of_ne_nil hsep]
  | succ f1 ih =>
    intro f2 s n h1 h2
    cases f2 with
    | zero =>
      have : s = [] := List.length_eq_zero.mp (Nat.le_zero.mp h2)
      subst this
      simp [countLoop, Index_nil_of_ne_nil hsep]
    | succ f2 =>
      unfold countLoop
      cases hI : Index s sep with
      | none => rfl
      | some i =>
        have hlen := length_drop_of_Index_some hsep hI
        exact ih f2 _ _ (by omega) (by omega)

theorem genSplit_eq_loop {sep : List Char} (hsep : 2 ≤ sep.length) (s : List Char) :
    genSplit s sep = genSplitLoop (countLoop s.length s sep 0) s sep := by
  have hne : sep ≠ [] := by intro h; subst h; simp at hsep
  have hE : sep.isEmpty = false := by cases sep <;> simp_all
  have h0 : ¬ sep.length = 0 := by omega
  have h1 : ¬ sep.length = 1 := by omega
  have hle := countLoop_le hne s.length s
  unfold genSplit Count
  simp only [hE, h0, h1, if_false, Bool.false_eq_true]
  have : ¬ (countLoop s.length s sep 0 + 1 > s.length + 1) := by omega
  simp only [this, if_false, Nat.add_sub_cancel]

/-- One round of `strings.Split`: the text up to the first separator, then the split of
what follows it. -/
theorem genSplit_eq {sep : List Char} (hsep : 2 ≤ sep.length) (s : List Char) :
    genSplit s sep =
      match Index s sep with
      | none => [s]
      | some m => s.take m :: genSplit (s.drop (m + sep.length)) sep := by
  have hne : sep ≠ [] := by intro h; subst h; simp at hsep
  rw [genSplit_eq_loop hsep]
  cases hI : Index s sep with
  | none => exact genSplitLoop_of_Index_none hI _
  | some m =>
    have hlen := length_drop_of_Index_some hne hI
    simp only
    rw [genSplit_eq_loop hsep]
    cases hs : s.length with
    | zero => omega
    | succ k =>
      have e1 : countLoop (k + 1) s sep 0 = 1 + countLoop k (s.drop (m + sep.length)) sep 0 := by
        simp only [countLoop, hI]
        rw [countLoop_acc]
      have e2 : countLoop k (s.drop (m + sep.length)) sep 0
          = countLoop (s.drop (m + sep.length)).length (s.drop (m + sep.length)) sep 0 :=
        countLoop_fuel hne _ _ _ _ (by omega) (le_refl _)
      rw [e1, e2, Nat.add_comm 1]
      simp only [genSplitLoop, hI]

theorem prefix_drop_of_Index_some {sep : List Char} :
    ∀ (s : List Char) (m : Nat), Index s sep = some m → sep <+: s.drop m := by
  intro s
  induction s with
  | nil =>
    intro m h
    unfold Index at h
    split at h
    · rename_i he
      cases h
      cases sep with
      | nil => simp
      | cons a t => simp at he
    · cases h
  | cons c cs ih =>
    intro m h
    unfold Index at h
    split at h
    · rename_i hp
      cases h
      simpa using List.isPrefixOf_iff_prefix.mp hp
    · cases hI : Index cs sep with
      | none => simp [hI] at h
      | some m' =>
        simp [hI] at h
        subst h
        rw [List.drop_succ_cons]
        exact ih m' hI

theorem genSplit_nil {sep : List Char} (hsep : 2 ≤ sep.length) : genSplit [] sep = [[]] := by
  have hne : sep ≠ [] := by intro h; subst h; simp at hsep
  rw [genSplit_eq hsep, Index_nil_of_ne_nil hne]

/-- A text that begins with the separator has an empty first segment. -/
theorem genSplit_of_leading_sep {sep : List Char} (hsep : 2 ≤ sep.length) {s : List Char}
    (h : sep <+: s) : genSplit s sep = [] :: genSplit (s.drop sep.length) sep := by
  have hne : sep ≠ [] := by intro h; subst h; simp at hsep
  rw [genSplit_eq hsep, Index_zero_of_leading_sep hne h]
  simp

theorem nil_mem_genSplit_of_leading_sep {sep : List Char} (hsep : 2 ≤ sep.length) {s : List Char}
    (h : sep <+: s) : [] ∈ genSplit s sep := by
  rw [genSplit_of_leading_sep hsep h]
  exact List.mem_cons_self _ _

/-- A text that ends with two line feeds not preceded by a line feed has an empty segment. -/
theorem nil_mem_genSplit_of_suffix :
    ∀ (n : Nat) (t : List Char), t.length ≤ n → t.getLast? ≠ some '\n' →
      [] ∈ genSplit (t ++ ['\n', '\n']) ['\n', '\n'] := by
  intro n
  induction n with
  | zero =>
    intro t ht _
    have : t = [] := List.length_eq_zero.mp (Nat.le_zero.mp ht)
    subst this
    exact nil_mem_genSplit_of_leading_sep (by decide) (by simp)
  | succ n ih =>
    intro t ht hlast
    have hsep : (2 : Nat) ≤ (['\n', '\n'] : List Char).length := by decide
    have hinf : ['\n', '\n'] <:+: t ++ ['\n', '\n'] := ⟨t, [], by simp⟩
    obtain ⟨m, hm⟩ := Index_ne_none_of_infix (by simp) hinf
    have hle : m ≤ t.length :=
      Index_le_of_prefix_drop hm (by simp)
    rw [genSplit_eq hsep, hm]
    simp only [List.mem_cons, List.length_cons, List.length_nil]
    right
    by_cases heq : m = t.length
    · subst heq
      have : List.drop (t.length + (0 + 1 + 1)) (t ++ ['\n', '\n']) = [] := by
        simp
      rw [this, genSplit_nil hsep]
      simp
    · have hocc := prefix_drop_of_Index_some _ _ hm
      have h2 : m + 2 ≤ t.length := by
        by_contra hc
        have hm1 : m + 1 = t.length := by omega
        rw [List.drop_append_of_le_length (by omega)] at hocc
        have hd : (t.drop m).length = 1 := by simp; omega
        obtain ⟨x, hx⟩ := List.length_eq_one.mp hd
        rw [hx] at hocc
        have hx' : x = '\n' := by
          obtain ⟨r, hr⟩ := hocc
          simp at hr
          exact hr.1.symm
        apply hlast
        have ht' : t = t.take m ++ [x] := by rw [← hx, List.take_append_drop]
        rw [ht', List.getLast?_append_of_ne_nil _ (by simp), hx']
        rfl
      have hd : List.drop (m + (0 + 1 + 1)) (t ++ ['\n', '\n']) = t.drop (m + 2) ++ ['\n', '\n'] :=
        List.drop_append_of_le_length h2
      rw [hd]
      apply ih
      · simp; omega
      · by_cases hnil : t.drop (m + 2) = []
        · rw [hnil]; simp
        · have ht' : t = t.take (m + 2) ++ t.drop (m + 2) := (List.take_append_drop _ _).symm
          rw [ht', List.getLast?_append_of_ne_nil _ hnil] at hlast
          exact hlast

/-- A text that contains four line feeds in a row has an empty segment. -/
theorem nil_mem_genSplit_of_four :
    ∀ (n : Nat) (a b : List Char), a.length ≤ n →
      [] ∈ genSplit (a ++ '\n' :: '\n' :: '\n' :: '\n' :: b) ['\n', '\n'] := by
  intro n
  induction n with
  | zero =>
    intro a b ha
    have : a = [] := List.length_eq_zero.mp (Nat.le_zero.mp ha)
    subst this
    exact nil_mem_genSplit_of_leading_sep (by decide) ⟨'\n' :: '\n' :: b, by simp⟩
  | succ n ih =>
    intro a b ha
    have hsep : (2 : Nat) ≤ (['\n', '\n'] : List Char).length := by decide
    have hpre : ['\n', '\n'] <+: List.drop a.length (a ++ '\n' :: '\n' :: '\n' :: '\n' :: b) := by
      rw [List.drop_left]
      exact ⟨'\n' :: '\n' :: b, by simp⟩
    have hinf : ['\n', '\n'] <:+: a ++ '\n' :: '\n' :: '\n' :: '\n' :: b :=
      ⟨a, '\n' :: '\n' :: b, by simp⟩
    obtain ⟨m, hm⟩ := Index_ne_none_of_infix (by simp) hinf
    have hle : m ≤ a.length := Index_le_of_prefix_drop hm hpre
    rw [genSplit_eq hsep, hm]
    simp only [List.mem_cons, List.length_cons, List.length_nil]
    right
    by_cases h2 : m + 2 ≤ a.length
    · rw [List.drop_append_of_le_length h2]
      exact ih _ _ (by simp; omega)
    · by_cases h1 : m + 1 = a.length
      · have : List.drop (m + (0 + 1 + 1)) (a ++ '\n' :: '\n' :: '\n' :: '\n' :: b)
            = '\n' :: '\n' :: '\n' :: b := by
          have e : m + (0 + 1 + 1) = a.length + 1 := by omega
          rw [e, List.drop_append]
          rfl
        rw [this]
        exact nil_mem_genSplit_of_leading_sep (by decide) ⟨'\n' :: b, by simp⟩
      · have hm0 : m = a.length := by omega
        have : List.drop (m + (0 + 1 + 1)) (a ++ '\n' :: '\n' :: '\n' :: '\n' :: b)
            = '\n' :: '\n' :: b := by
          have e : m + (0 + 1 + 1) = a.length + 2 := by omega
          rw [e, List.drop_append]
          rfl
        rw [this]
        exact nil_mem_genSplit_of_leading_sep (by decide) ⟨b, by simp⟩

end strings

/-! ### service.splitIntoVerses: empty verses -/

namespace service

theorem makeVerses_texts (id : Int) (versesText : List String) :
    (makeVerses id versesText).map (fun v => v.Text) = versesText := by
  rw [makeVerses_eq_map, List.map_map]
  have : ((fun v : models.Verse => v.Text) ∘
      (fun iv : Nat × String =>
        ({ ID := 0, SongID := id, VerseNumber := (iv.1 : Int) + 1, Text := iv.2 } : models.Verse)))
      = Prod.snd := rfl
  rw [this]
  simp [List.enum]

theorem empty_mem_splitIntoVerses {text : String}
    (h : [] ∈ strings.genSplit text.data ['\n', '\n']) : "" ∈ splitIntoVerses text := by
  unfold splitIntoVerses strings.Split
  exact List.mem_map.mpr ⟨[], h, rfl⟩

/-- A text ending with two line feeds, the line feeds at its end not being exactly
three, either has no line feed before the last two or ends with four. -/
theorem suffix_cases (l : List Char)
    (hs : ['\n', '\n'] <:+ l)
    (h3 : ¬ ∃ t, l = t ++ ['\n', '\n', '\n'] ∧ t.getLast? ≠ some '\n') :
    (∃ t, l = t ++ ['\n', '\n'] ∧ t.getLast? ≠ some '\n')
    ∨ ∃ a, l = a ++ ['\n', '\n', '\n', '\n'] := by
  obtain ⟨u, hu⟩ := hs
  by_cases h1 : u.getLast? = some '\n'
  · right
    obtain ⟨u', hu'⟩ : ∃ u', u = u' ++ ['\n'] := by
      rcases List.eq_nil_or_concat u with hnil | ⟨u', x, hx⟩
      · subst hnil; simp at h1
      · subst hx
        simp at h1
        exact ⟨u', by rw [h1]; simp⟩
    have h2 : u'.getLast? = some '\n' := by
      by_contra hc
      exact h3 ⟨u', by rw [← hu, hu']; simp, hc⟩
    obtain ⟨u'', hu''⟩ : ∃ u'', u' = u'' ++ ['\n'] := by
      rcases List.eq_nil_or_concat u' with hnil | ⟨u'', x, hx⟩
      · subst hnil; simp at h2
      · subst hx
        simp at h2
        exact ⟨u'', by rw [h2]; simp⟩
    exact ⟨u'', by rw [← hu, hu', hu'']; simp⟩
  · left
    exact ⟨u, hu.symm, h1⟩

/-- C14, as amended. For every lyrics text that begins with "\n\n", or that ends with
"\n\n" where the line feeds ending the text are not exactly three (the last "\n\n" is
not preceded by a line feed, or the text ends with four line feeds), the verses that
song creation derives include a verse whose text is the empty string. Empty segments
are never filtered out: the texts of the verses are the segments, one verse each. -/
theorem empty_verse_of_blank_boundary (id : Int) (text : String)
    (h : "\n\n".data <+: text.data
      ∨ ("\n\n".data <:+ text.data
          ∧ ¬ ∃ t, text.data = t ++ "\n\n\n".data ∧ t.getLast? ≠ some '\n')) :
    (∃ v ∈ makeVerses id (splitIntoVerses text), v.Text = "")
    ∧ (makeVerses id (splitIntoVerses text)).map (fun v => v.Text) = splitIntoVerses text := by
  refine ⟨?_, makeVerses_texts id _⟩
  have hmem : "" ∈ splitIntoVerses text := by
    apply empty_mem_splitIntoVerses
    rcases h with h | ⟨hs, h3⟩
    · exact strings.nil_mem_genSplit_of_leading_sep (by decide) h
    · rcases suffix_cases text.data hs h3 with ⟨t, ht, hlast⟩ | ⟨a, ha⟩
      · rw [ht]
        exact strings.nil_mem_genSplit_of_suffix t.length t (le_refl _) hlast
      · rw [ha]
        exact strings.nil_mem_genSplit_of_four a.length a [] (le_refl _)
  rw [← makeVerses_texts id (splitIntoVerses text)] at hmem
  obtain ⟨v, hv, hvt⟩ := List.mem_map.mp hmem
  exact ⟨v, hv, hvt⟩

/-- C14, the claim as stated fails: the lyrics "a\n\n\n" end with "\n\n", yet song
creation derives the two verses "a" and "\n", none of them empty. -/
theorem no_empty_verse_for_three_line_feeds :
    "\n\n".data <:+ "a\n\n\n".data
    ∧ makeVerses 1 (splitIntoVerses "a\n\n\n") =
        [{ ID := 0, SongID := 1, VerseNumber := 1, Text := "a" },
         { ID := 0, SongID := 1, VerseNumber := 2, Text := "\n" }]
    ∧ ∀ v ∈ makeVerses 1 (splitIntoVerses "a\n\n\n"), v.Text ≠ "" := by
  refine ⟨⟨"a\n".data, rfl⟩, by decide, by decide⟩

/-- C14, run: lyrics that begin with a blank line and lyrics that end with one. -/
theorem empty_verse_of_blank_boundary_witness :
    "\n\n".data <+: "\n\nla la".data
    ∧ (∃ v ∈ makeVerses 1 (splitIntoVerses "\n\nla la"), v.Text = "")
    ∧ makeVerses 1 (splitIntoVerses "la la\n\n") =
        [{ ID := 0, SongID := 1, VerseNumber := 1, Text := "la la" },
         { ID := 0, SongID := 1, VerseNumber := 2, Text := "" }] :=
  ⟨⟨"la la".data, rfl⟩,
   (empty_verse_of_blank_boundary 1 "\n\nla la" (Or.inl ⟨"la la".data, rfl⟩)).1,
   by decide⟩

end service

/-! ### DELETE /songs/{id} down to the delete statement -/

namespace handlers

/-- C12. For every request whose `id` parameter parses as the integer `id`, served by
the handler over the service over the PostgreSQL repository: whenever the statement
`DELETE FROM songs WHERE id = $1` bound to `id` executes without error, the response
is status 200 with the body of "status" "ok" (on a writer nothing was written to and
a request without a `render.Status` value), and the database is left as the delete
left it. Nothing but the error of the delete is consulted, so the answer is the same
whether or not a row had that identifier. -/
theorem DeleteSong_ok_without_row_check {σ : Type} (env : service.Env) (db : database.DB σ)
    (vdb : database.VersesDB σ) (w : http.ResponseWriter) (r : http.Request) (s s1 : σ) (id : Int)
    (hw : w.Status = none) (hr : r.Context.renderStatus = none)
    (hid : strconv.Atoi (chi.URLParam r "id") = (id, none))
    (hexec : db.Exec (database.DeleteSongStatement id).query (database.DeleteSongStatement id).args s
      = (none, s1)) :
    DeleteSong (service.NewMusicService env (database.NewPostgresRepository db vdb)) w r s
        = (render.JSON w r "\x7b\"status\":\"ok\"\x7d\n", s1)
    ∧ (DeleteSong (service.NewMusicService env (database.NewPostgresRepository db vdb)) w r s).1.Status
        = some 200
    ∧ (DeleteSong (service.NewMusicService env (database.NewPostgresRepository db vdb)) w r s).1.Body
        = w.Body ++ "\x7b\"status\":\"ok\"\x7d\n"
    ∧ database.placeholders (database.DeleteSongStatement id).query.data = [1]
    ∧ (database.DeleteSongStatement id).args = [database.SQLArg.int id] := by
  have h : DeleteSong (service.NewMusicService env (database.NewPostgresRepository db vdb)) w r s
      = (render.JSON w r "\x7b\"status\":\"ok\"\x7d\n", s1) := by
    simp [DeleteSong, hid, service.NewMusicService, database.NewPostgresRepository,
      database.DeleteSong, hexec]
  have hq : (database.DeleteSongStatement id).query = (database.DeleteSongStatement 0).query := rfl
  refine ⟨h, ?_, ?_, ?_, rfl⟩
  · rw [h]; simp [render.JSON, hr, http.Write, http.WriteHeader, hw]
  · rw [h]; simp [render.JSON, hr, http.Write, http.WriteHeader, hw]
  · rw [hq]; decide

set_option maxRecDepth 100000 in
/-- C12, run: `DELETE /songs/42` on a database whose only song has identifier 1. The
delete is the only statement the database receives, the song stays, and the response
is 200 with "status" "ok". -/
theorem DeleteSong_ok_without_row_check_witness :
    strconv.Atoi (chi.URLParam (fixtures.songRequest "42") "id") = (42, none)
    ∧ fixtures.pgDriver.Exec (database.DeleteSongStatement 42).query (database.DeleteSongStatement 42).args
        ⟨[{ fixtures.posted with ID := 1 }], [], none, []⟩
      = (none, ⟨[{ fixtures.posted with ID := 1 }], [], none, [database.DeleteSongStatement 42]⟩)
    ∧ (DeleteSong
        (service.NewMusicService fixtures.apiDown
          (database.NewPostgresRepository fixtures.pgDriver (fixtures.pgVerses none (fun _ _ => none) none)))
        fixtures.freshWriter (fixtures.songRequest "42")
        ⟨[{ fixtures.posted with ID := 1 }], [], none, []⟩).1.Status = some 200
    ∧ (DeleteSong
        (service.NewMusicService fixtures.apiDown
          (database.NewPostgresRepository fixtures.pgDriver (fixtures.pgVerses none (fun _ _ => none) none)))
        fixtures.freshWriter (fixtures.songRequest "42")
        ⟨[{ fixtures.posted with ID := 1 }], [], none, []⟩).1.Body = "\x7b\"status\":\"ok\"\x7d\n"
    ∧ (DeleteSong
        (service.NewMusicService fixtures.apiDown
          (database.NewPostgresRepository fixtures.pgDriver (fixtures.pgVerses none (fun _ _ => none) none)))
        fixtures.freshWriter (fixtures.songRequest "42")
        ⟨[{ fixtures.posted with ID := 1 }], [], none, []⟩).2
      = ⟨[{ fixtures.posted with ID := 1 }], [], none, [database.DeleteSongStatement 42]⟩ := by
  have h := DeleteSong_ok_without_row_check fixtures.apiDown fixtures.pgDriver
    (fixtures.pgVerses none (fun _ _ => none) none) fixtures.freshWriter (fixtures.songRequest "42")
    ⟨[{ fixtures.posted with ID := 1 }], [], none, []⟩
    ⟨[{ fixtures.posted with ID := 1 }], [], none, [database.DeleteSongStatement 42]⟩ 42
    rfl rfl (by decide) (by decide)
  refine ⟨by decide, by decide, h.2.1, h.2.2.1, ?_⟩
  rw [h.1]

end handlers

/-! ### service.GetSongDetails: the URL requested -/

namespace service

set_option maxRecDepth 100000 in
/-- C13, the code at failing inputs. For "Muse" and "Hysteria" the query of the URL
reads back as given. For the group "Simon&Garfunkel" the URL is
".../info?group=Simon&Garfunkel&song=Cecilia" and its parameter `group` reads "Simon";
for the group "C#m" the rest of the URL is a fragment: `group` reads "C" and `song` is
absent; for the group "100%" the pair does not unescape and `group` is absent; for the
title "1+1" the parameter `song` reads "1 1". -/
theorem apiUrl_not_escaped :
    url.Query (apiUrl fixtures.apiDown "Muse" "Hysteria") = [("group", "Muse"), ("song", "Hysteria")]
    ∧ apiUrl fixtures.apiDown "Simon&Garfunkel" "Cecilia"
        = "http://api.test/info?group=Simon&Garfunkel&song=Cecilia"
    ∧ http.QueryGet (url.Query (apiUrl fixtures.apiDown "Simon&Garfunkel" "Cecilia")) "group" = "Simon"
    ∧ http.QueryGet (url.Query (apiUrl fixtures.apiDown "C#m" "Blue")) "group" = "C"
    ∧ http.QueryGet (url.Query (apiUrl fixtures.apiDown "C#m" "Blue")) "song" = ""
    ∧ http.QueryGet (url.Query (apiUrl fixtures.apiDown "100%" "Blue")) "group" = ""
    ∧ http.QueryGet (url.Query (apiUrl fixtures.apiDown "Muse" "1+1")) "song" = "1 1" := by
  decide

end service

/-! ### database.AddVerses: the transaction -/

namespace database

/-- The loop of `AddVerses` on any observed driver: either every insert succeeds, or the
loop stops at the first insert that fails. Under `Transactional` the table is untouched
either way, and the rows of the batch are added to those of the transaction when every
insert succeeds. -/
theorem addVersesLoop_cases {σ : Type} (db : VersesDB σ)
    (table pending : σ → List (Int × Int × String)) (h : Transactional db table pending)
    (songID : Int) :
    ∀ (verses : List models.Verse) (s : σ) (log : List TxCall),
      (∃ s', addVersesLoop (recordingTx db) songID verses (s, log)
            = (none, (s', log ++ verses.map (fun v => TxCall.insert songID v none)))
          ∧ table s' = table s
          ∧ pending s' = pending s ++ verses.map (verseColumns songID))
      ∨ (∃ (s' : σ) (pre : List models.Verse) (v : models.Verse) (e : Error),
          addVersesLoop (recordingTx db) songID verses (s, log)
            = (some ("ошибка добавления куплета: " ++ e),
               (s', log ++ pre.map (fun v => TxCall.insert songID v none) ++ [TxCall.insert songID v (some e)]))
          ∧ table s' = table s) := by
  intro verses
  induction verses with
  | nil =>
    intro s log
    left
    exact ⟨s, by simp [addVersesLoop], rfl, by simp⟩
  | cons v vs ih =>
    intro s log
    have ht := h.exec_table (AddVersesStatement songID v).query (AddVersesStatement songID v).args s
    have hp := h.exec_pending songID v s
    rcases hr : db.TxExec (AddVersesStatement songID v).query (AddVersesStatement songID v).args s
      with ⟨err, s1⟩
    rw [hr] at ht hp
    cases err with
    | some e =>
      right
      refine ⟨s1, [], v, e, ?_, ht⟩
      simp [addVersesLoop, recordingTx, hr, TxCall.insert]
    | none =>
      have hstep : addVersesLoop (recordingTx db) songID (v :: vs) (s, log)
          = addVersesLoop (recordingTx db) songID vs (s1, log ++ [TxCall.insert songID v none]) := by
        simp [addVersesLoop, recordingTx, hr, TxCall.insert]
      rw [hstep]
      rcases ih s1 (log ++ [TxCall.insert songID v none])
        with ⟨s', h1, h2, h3⟩ | ⟨s', pre, w, e, h1, h2⟩
      · left
        refine ⟨s', ?_, h2.trans ht, ?_⟩
        · rw [h1]; simp
        · rw [h3, hp rfl]; simp
      · right
        refine ⟨s', v :: pre, w, e, ?_, h2.trans ht⟩
        rw [h1]; simp

/-- The three ways a run of `AddVerses` on any observed driver can go: the transaction
cannot be begun; an insert fails and the deferred `Rollback` is the last call; every
insert succeeds, `Commit` is called and `AddVerses` returns what it returns. -/
theorem AddVerses_cases {σ : Type} (db : VersesDB σ)
    (table pending : σ → List (Int × Int × String)) (h : Transactional db table pending)
    (songID : Int) (verses : List models.Verse) (s : σ) :
    (∃ (e : Error) (s' : σ), (db.BeginTx s).1 = some e
        ∧ AddVerses (recordingTx db) songID verses (s, [])
          = (some ("ошибка начала транзакции: " ++ e), (s', [TxCall.BeginTx (some e)]))
        ∧ table s' = table s)
    ∨ ((db.BeginTx s).1 = none
        ∧ ∃ (s' : σ) (pre : List models.Verse) (v : models.Verse) (e : Error) (r : Option Error),
          AddVerses (recordingTx db) songID verses (s, [])
            = (some ("ошибка добавления куплета: " ++ e),
               (s', TxCall.BeginTx none :: (pre.map (fun v => TxCall.insert songID v none)
                  ++ [TxCall.insert songID v (some e), TxCall.Rollback r])))
          ∧ table s' = table s)
    ∨ ((db.BeginTx s).1 = none
        ∧ ∃ (s' : σ) (c r : Option Error),
          AddVerses (recordingTx db) songID verses (s, [])
            = (c, (s', TxCall.BeginTx none :: (verses.map (fun v => TxCall.insert songID v none)
                  ++ [TxCall.Commit c, TxCall.Rollback r])))
          ∧ (c = none → table s' = table s ++ verses.map (verseColumns songID))) := by
  have hbt := h.begin_table s
  have hbp := h.begin_pending s
  rcases hb : db.BeginTx s with ⟨be, s1⟩
  rw [hb] at hbt hbp
  cases be with
  | some e =>
    left
    exact ⟨e, s1, rfl, by simp [AddVerses, recordingTx, hb], hbt⟩
  | none =>
    right
    have hbegin : (recordingTx db).BeginTx (s, []) = (none, (s1, [TxCall.BeginTx none])) := by
      simp [recordingTx, hb]
    rcases addVersesLoop_cases db table pending h songID verses s1 [TxCall.BeginTx none]
      with ⟨s', h1, h2, h3⟩ | ⟨s', pre, v, e, h1, h2⟩
    · right
      refine ⟨rfl, ?_⟩
      have hc := h.commit_ok s'
      rcases hcm : db.Commit s' with ⟨c, s3⟩
      rw [hcm] at hc
      refine ⟨(db.Rollback s3).2, c, (db.Rollback s3).1, ?_, ?_⟩
      · simp only [AddVerses, hbegin, h1]
        simp [recordingTx, hcm]
      · intro hnone
        rw [h.rollback_table s3, hc hnone, h2, hbt, h3, hbp rfl]
        simp
    · left
      refine ⟨rfl, (db.Rollback s').2, pre, v, e, (db.Rollback s').1, ?_, ?_⟩
      · simp only [AddVerses, hbegin, h1]
        simp [recordingTx]
      · rw [h.rollback_table s', h2, hbt]

/-- The in-memory PostgreSQL store is transactional, whatever errors it is made to return. -/
theorem pgVerses_transactional (beginErr : Option Error)
    (insertErr : List SQLArg → fixtures.Pg → Option Error) (commitErr : Option Error) :
    Transactional (fixtures.pgVerses beginErr insertErr commitErr) fixtures.pgTable fixtures.pgPending where
  begin_table s := by
    cases beginErr <;> simp [fixtures.pgVerses, fixtures.pgTable]
  begin_pending s := by
    cases beginErr <;> simp [fixtures.pgVerses, fixtures.pgPending]
  exec_table query args s := by
    simp only [fixtures.pgVerses, fixtures.pgTable]
    split
    · rfl
    · split
      · rfl
      · split <;> rfl
  exec_pending songID verse s := by
    simp only [fixtures.pgVerses, fixtures.pgPending, AddVersesStatement, verseColumns]
    cases hp : s.pending with
    | none => simp
    | some p =>
      cases hi : insertErr [SQLArg.int songID, SQLArg.int verse.VerseNumber, SQLArg.str verse.Text] s with
      | some e => simp
      | none => simp [fixtures.verseRow]
  commit_ok s := by
    simp only [fixtures.pgVerses, fixtures.pgTable, fixtures.pgPending]
    cases hp : s.pending with
    | none => simp
    | some p => cases commitErr <;> simp
  rollback_table s := by
    simp only [fixtures.pgVerses, fixtures.pgTable]
    cases s.pending <;> rfl

/-- C11, as amended. `AddVerses` run on any driver that is `Transactional` (statements
of an open transaction reach the table of verses only through a `Commit` that
succeeds), from any state. If the insert of any verse fails, `AddVerses` returns an
error, `Commit` is never called, the deferred `Rollback` is, and the table is as it
was: no verse of the batch is persisted. If the transaction cannot be begun,
`AddVerses` returns an error after that one call and the table is as it was. If the
transaction begins and no insert fails, the calls are `BeginTx`, one insert per verse
in order, `Commit` once and the deferred `Rollback`, and `AddVerses` returns what
`Commit` returns. Whenever `AddVerses` returns nil, all verses of the batch are
persisted, in order. -/
theorem AddVerses_all_or_nothing {σ : Type} (db : VersesDB σ)
    (table pending : σ → List (Int × Int × String)) (h : Transactional db table pending)
    (songID : Int) (verses : List models.Verse) (s : σ) :
    ∀ out, AddVerses (recordingTx db) songID verses (s, []) = out →
      ((∃ q a e, TxCall.TxExec q a (some e) ∈ out.2.2) →
          out.1 ≠ none ∧ (∀ e, TxCall.Commit e ∉ out.2.2) ∧ (∃ r, TxCall.Rollback r ∈ out.2.2)
          ∧ table out.2.1 = table s)
      ∧ ((db.BeginTx s).1 ≠ none →
          out.1 ≠ none ∧ out.2.2 = [TxCall.BeginTx (db.BeginTx s).1] ∧ table out.2.1 = table s)
      ∧ ((db.BeginTx s).1 = none → (∀ q a e, TxCall.TxExec q a (some e) ∉ out.2.2) →
          ∃ c r, out.2.2 = TxCall.BeginTx none :: (verses.map (fun v => TxCall.insert songID v none)
              ++ [TxCall.Commit c, TxCall.Rollback r])
            ∧ out.1 = c)
      ∧ (out.1 = none → table out.2.1 = table s ++ verses.map (verseColumns songID)) := by
  intro out hout
  rcases AddVerses_cases db table pending h songID verses s
    with ⟨e, s', hb, hrun, ht⟩ | ⟨hb, s', pre, v, e, r, hrun, ht⟩ | ⟨hb, s', c, r, hrun, ht⟩
  · rw [hrun] at hout
    subst hout
    refine ⟨?_, ?_, ?_, ?_⟩
    · rintro ⟨q, a, e', hmem⟩
      simp at hmem
    · intro _
      exact ⟨by simp, by simp [hb], ht⟩
    · intro hnone
      rw [hb] at hnone
      cases hnone
    · intro hnone
      simp at hnone
  · rw [hrun] at hout
    subst hout
    refine ⟨?_, ?_, ?_, ?_⟩
    · intro _
      exact ⟨by simp, by simp [TxCall.insert], ⟨r, by simp⟩, ht⟩
    · intro hne
      exact absurd hb hne
    · intro _ hno
      exact absurd (by simp [TxCall.insert]) (hno (AddVersesStatement songID v).query
        (AddVersesStatement songID v).args e)
    · intro hnone
      simp at hnone
  · rw [hrun] at hout
    subst hout
    refine ⟨?_, ?_, ?_, ?_⟩
    · rintro ⟨q, a, e', hmem⟩
      simp [TxCall.insert] at hmem
    · intro hne
      exact absurd hb hne
    · intro _ _
      exact ⟨c, r, rfl, rfl⟩
    · intro hnone
      exact ht hnone

/-- C11, the claim as stated fails. On a transactional store whose `Commit` fails and
aborts the transaction, both inserts of the batch succeed and `Commit` is called once,
but `AddVerses` returns the error of `Commit` and no verse of the batch is persisted. -/
theorem AddVerses_commit_failure_persists_nothing :
    Transactional (fixtures.pgVerses none (fun _ _ => none) (some "pq: could not commit"))
      fixtures.pgTable fixtures.pgPending
    ∧ AddVerses (recordingTx (fixtures.pgVerses none (fun _ _ => none) (some "pq: could not commit")))
        1 [⟨0, 1, 1, "A"⟩, ⟨0, 1, 2, "B"⟩] (⟨[], [], none, []⟩, [])
      = (some "pq: could not commit",
         (⟨[], [], none, []⟩,
          [TxCall.BeginTx none,
           TxCall.insert 1 ⟨0, 1, 1, "A"⟩ none,
           TxCall.insert 1 ⟨0, 1, 2, "B"⟩ none,
           TxCall.Commit (some "pq: could not commit"),
           TxCall.Rollback (some "sql: transaction has already been committed or rolled back")])) :=
  ⟨pgVerses_transactional _ _ _, by decide⟩

/-- C11, run, on the in-memory PostgreSQL store under the unique constraint on
(song_id, verse_number), with one row in the table. The third verse of a batch repeats
the number of the first: its insert fails and the table keeps the one row. A batch of
two verses with different numbers returns nil and both rows follow the old one. -/
theorem AddVerses_all_or_nothing_witness :
    Transactional (fixtures.pgVerses none fixtures.uniqueVerseNumber none)
      fixtures.pgTable fixtures.pgPending
    ∧ fixtures.pgTable
        (AddVerses (recordingTx (fixtures.pgVerses none fixtures.uniqueVerseNumber none))
          1 [⟨0, 1, 1, "A"⟩, ⟨0, 1, 2, "B"⟩, ⟨0, 1, 1, "C"⟩] (⟨[], [⟨0, 9, 1, "old"⟩], none, []⟩, [])).2.1
      = [(9, 1, "old")]
    ∧ fixtures.pgTable
        (AddVerses (recordingTx (fixtures.pgVerses none fixtures.uniqueVerseNumber none))
          1 [⟨0, 1, 1, "A"⟩, ⟨0, 1, 2, "B"⟩] (⟨[], [⟨0, 9, 1, "old"⟩], none, []⟩, [])).2.1
      = [(9, 1, "old"), (1, 1, "A"), (1, 2, "B")] :=
  ⟨pgVerses_transactional _ _ _,
   ((AddVerses_all_or_nothing (fixtures.pgVerses none fixtures.uniqueVerseNumber none)
      fixtures.pgTable fixtures.pgPending (pgVerses_transactional _ _ _) 1
      [⟨0, 1, 1, "A"⟩, ⟨0, 1, 2, "B"⟩, ⟨0, 1, 1, "C"⟩] ⟨[], [⟨0, 9, 1, "old"⟩], none, []⟩ _ rfl).1
      ⟨(AddVersesStatement 1 ⟨0, 1, 1, "C"⟩).query, (AddVersesStatement 1 ⟨0, 1, 1, "C"⟩).args,
       "pq: duplicate key value violates unique constraint", by decide⟩).2.2.2,
   (AddVerses_all_or_nothing (fixtures.pgVerses none fixtures.uniqueVerseNumber none)
      fixtures.pgTable fixtures.pgPending (pgVerses_transactional _ _ _) 1
      [⟨0, 1, 1, "A"⟩, ⟨0, 1, 2, "B"⟩] ⟨[], [⟨0, 9, 1, "old"⟩], none, []⟩ _ rfl).2.2.2 (by decide)⟩

end database

end MusicLibrary
